import Mathlib

/-!
# Verification of the `api` service (automate6500/golang-ci)

A shallow embedding of the Go packages `internal/model`, `internal/service`,
`internal/handler` and `internal/config`, followed by theorems about them.

Conventions of the embedding:

* a Go `string` is its sequence of bytes, `GoString := List Nat`; every theorem
  below holds for arbitrary lists, in particular for all lists of bytes;
* Go slices and pointers live in an explicit `Heap` of backing arrays, so that
  aliasing between the store and the values it hands out can be stated;
* a run-time panic (index out of range) is the result `none`;
* the methods of `Service` are embedded twice: as functions from the state
  before a call to the state after it, without the lock, and, for `LoadData`
  and `GetAllData`, as step machines that run one statement at a time under
  the `sync.RWMutex` of the service, interleaved by a scheduler; the two
  embeddings are shown to agree on a call that runs alone.
-/

namespace Api

/-! ## Go strings -/

/-- A Go string: an immutable sequence of bytes, not necessarily valid UTF-8. -/
abbrev GoString := List Nat

/-- The UTF-8 bytes of one character of a source literal. -/
def utf8Bytes (c : Char) : List Nat := (String.utf8EncodeChar c).map UInt8.toNat

/-- The Go string denoted by a source literal. -/
def str (s : String) : GoString := s.toList.flatMap utf8Bytes

/-- The constant `utf8.RuneError`, U+FFFD. -/
def runeError : Nat := 0xFFFD

/-- The constant `utf8.RuneSelf`: bytes below it are single-byte runes. -/
def runeSelf : Nat := 0x80

/-- A UTF-8 continuation byte: `locb <= b && b <= hicb`. -/
def isCont (b : Nat) : Bool := 0x80 ≤ b && b ≤ 0xBF

/-- The Go runtime function `decoderune(s, k)` applied to the suffix `s[k:]`:
the decoded rune and the number of bytes it occupies. Ill-formed input decodes
to `runeError` of width 1. -/
def decoderune : GoString → Nat × Nat
  | [] => (runeError, 1)
  | s0 :: rest =>
    if 0xC0 ≤ s0 ∧ s0 < 0xE0 then
      -- 0080-07FF two byte sequence
      match rest with
      | s1 :: _ =>
        if isCont s1 then
          let r := ((s0 &&& 0x1F) <<< 6) ||| (s1 &&& 0x3F)
          if 0x7F < r then (r, 2) else (runeError, 1)
        else (runeError, 1)
      | _ => (runeError, 1)
    else if 0xE0 ≤ s0 ∧ s0 < 0xF0 then
      -- 0800-FFFF three byte sequence
      match rest with
      | s1 :: s2 :: _ =>
        if isCont s1 && isCont s2 then
          let r := ((s0 &&& 0x0F) <<< 12) ||| ((s1 &&& 0x3F) <<< 6) ||| (s2 &&& 0x3F)
          if 0x7FF < r ∧ ¬ (0xD800 ≤ r ∧ r ≤ 0xDFFF) then (r, 3) else (runeError, 1)
        else (runeError, 1)
      | _ => (runeError, 1)
    else if 0xF0 ≤ s0 ∧ s0 < 0xF8 then
      -- 10000-1FFFFF four byte sequence
      match rest with
      | s1 :: s2 :: s3 :: _ =>
        if isCont s1 && isCont s2 && isCont s3 then
          let r := ((s0 &&& 0x07) <<< 18) ||| ((s1 &&& 0x3F) <<< 12)
                    ||| ((s2 &&& 0x3F) <<< 6) ||| (s3 &&& 0x3F)
          if 0xFFFF < r ∧ r ≤ 0x10FFFF then (r, 4) else (runeError, 1)
        else (runeError, 1)
      | _ => (runeError, 1)
    else (runeError, 1)

/-- One step of `for i, r := range s`: the rune that starts at the head of a
non-empty suffix and its width (a byte below `runeSelf` is its own rune). -/
def nextRune (b : Nat) (rest : GoString) : Nat × Nat :=
  if b < runeSelf then (b, 1) else decoderune (b :: rest)

/-- The iterations of `for i, r := range s`, as the list of pairs `(i, r)`.
`rangeFrom i skip t` walks the suffix `t` that starts at byte index `i`; `skip`
counts the bytes still covered by the rune decoded last, which start no
iteration. -/
def rangeFrom : Nat → Nat → GoString → List (Nat × Nat)
  | _, _, [] => []
  | i, skip + 1, _ :: rest => rangeFrom (i + 1) skip rest
  | i, 0, b :: rest =>
    (i, (nextRune b rest).1) :: rangeFrom (i + 1) ((nextRune b rest).2 - 1) rest

/-- The pairs `(i, r)` visited by `for i, r := range s`. -/
def stringRange (s : GoString) : List (Nat × Nat) := rangeFrom 0 0 s

/-! ## Package `model` -/

/-- The struct `model.Data`. -/
structure Data where
  GUID : GoString
  School : GoString
  Mascot : GoString
  Nickname : GoString
  Location : GoString
  LatLong : GoString
  NCAA : GoString
  Conference : GoString
  deriving DecidableEq, Repr

/-- The zero value of `model.Data`. -/
def Data.zero : Data := ⟨[], [], [], [], [], [], [], []⟩

/-- The condition `(r >= '0' && r <= '9') || (r >= 'a' && r <= 'f') ||
(r >= 'A' && r <= 'F')` of `ValidateGUID`. -/
def isHexRune (r : Nat) : Bool :=
  ('0'.toNat ≤ r && r ≤ '9'.toNat) || ('a'.toNat ≤ r && r ≤ 'f'.toNat)
    || ('A'.toNat ≤ r && r ≤ 'F'.toNat)

/-- The first loop of `ValidateGUID`, over the remaining `expectedDashes`:
`some false` when the loop returns false, `some true` when it runs to its end,
`none` when `guid[pos]` is out of range. -/
def dashLoop (guid : GoString) : List Nat → Option Bool
  | [] => some true
  | pos :: rest =>
    match guid[pos]? with
    | none => none
    | some b => if b ≠ '-'.toNat then some false else dashLoop guid rest

/-- The second loop of `ValidateGUID`, over the remaining iterations of
`for i, r := range guid`: false when the loop returns false, true when it runs
to its end. -/
def hexLoop : List (Nat × Nat) → Bool
  | [] => true
  | (i, r) :: rest =>
    if i = 8 ∨ i = 13 ∨ i = 18 ∨ i = 23 then hexLoop rest
    else if ¬ isHexRune r then false
    else hexLoop rest

/-- The function `model.ValidateGUID`; `none` is a run-time panic. -/
def ValidateGUID (guid : GoString) : Option Bool :=
  if guid.length ≠ 36 then some false
  else
    match dashLoop guid [8, 13, 18, 23] with
    | none => none
    | some false => some false
    | some true => some (hexLoop (stringRange guid))

/-- The shape that the documentation of `ValidateGUID` describes: 36 bytes,
hyphens at 8, 13, 18 and 23, hexadecimal digits of either case elsewhere. -/
def GUIDShape (s : GoString) : Prop :=
  s.length = 36 ∧
    ∀ i b, s[i]? = some b →
      if i = 8 ∨ i = 13 ∨ i = 18 ∨ i = 23 then b = 45
      else (48 ≤ b ∧ b ≤ 57) ∨ (97 ≤ b ∧ b ≤ 102) ∨ (65 ≤ b ∧ b ≤ 70)

/-! ## Heap: slices and pointers -/

/-- The heap of backing arrays of `model.Data`; an address is a position in the
list, and allocation appends a fresh array. -/
abbrev Heap := List (List Data)

/-- A value of type `[]model.Data`: the nil slice, or the address of its backing
array. The program never reslices, so a slice spans its whole array. -/
abbrev Slice := Option Nat

/-- A non-nil value of type `*model.Data`: the address of element `idx` of the
array at `arr`. A variable that escapes is an array of one element. -/
structure Ptr where
  arr : Nat
  idx : Nat
  deriving DecidableEq, Repr

/-- Allocation of a fresh array with the given contents. -/
def Heap.alloc (h : Heap) (xs : List Data) : Nat × Heap := (h.length, h ++ [xs])

/-- The elements of a slice, in order. -/
def Heap.elems (h : Heap) : Slice → List Data
  | none => []
  | some a => h.getD a []

/-- The builtin `len(sl)`. -/
def Heap.len (h : Heap) (sl : Slice) : Nat := (h.elems sl).length

/-- The expression `sl[i]`; `none` when the index is out of range. -/
def Heap.index (h : Heap) (sl : Slice) (i : Nat) : Option Data := (h.elems sl)[i]?

/-- The expression `*p`; `none` when `p` points to no element. -/
def Heap.load (h : Heap) (p : Ptr) : Option Data := (h.getD p.arr [])[p.idx]?

/-- The assignment `*p = v` (and so `sl[i] = v`, a field update being the
store of the updated record). A store that hits no element changes nothing. -/
def Heap.store (h : Heap) (p : Ptr) (v : Data) : Heap :=
  h.set p.arr ((h.getD p.arr []).set p.idx v)

/-- The builtin `make([]model.Data, n)`: a fresh array of `n` zero values. -/
def make (h : Heap) (n : Nat) : Slice × Heap :=
  ((some (h.alloc (List.replicate n Data.zero)).1), (h.alloc (List.replicate n Data.zero)).2)

/-- The builtin `copy(dst, src)`: overwrites the first `min(len(dst), len(src))`
elements of `dst` with those of `src` and returns their number. -/
def copy (h : Heap) (dst src : Slice) : Nat × Heap :=
  let n := min (h.len dst) (h.len src)
  match dst with
  | none => (n, h)
  | some a => (n, h.set a ((h.elems src).take n ++ (h.elems dst).drop n))

/-- A slice of a heap is allocated when it is nil or its array exists. -/
def Heap.allocated (h : Heap) : Slice → Prop
  | none => True
  | some a => a < h.length

/-! ## Package `service` -/

/-- The struct `service.Service` (without its mutex). -/
structure Service where
  data : Slice
  filePath : GoString
  deriving DecidableEq, Repr

/-- The outside world of `LoadData`: `os.ReadFile`, which gives the bytes of a
file or an error message, and `json.Unmarshal` into a `[]model.Data`, which
gives the records decoded so far together with an error message, if any. -/
structure Env where
  ReadFile : GoString → Except GoString (List Nat)
  Unmarshal : List Nat → List Data × Option GoString

/-- The method `(*Service).LoadData`: the returned error (`none` is nil), the
service and the heap after the call. -/
def Service.LoadData (env : Env) (s : Service) (h : Heap) :
    Option GoString × Service × Heap :=
  match env.ReadFile s.filePath with
  | .error err => (some (str "could not read data file: " ++ err), s, h)
  | .ok file =>
    -- var data []model.Data, filled through &data by json.Unmarshal
    let decoded := env.Unmarshal file
    let data := h.alloc decoded.1
    match decoded.2 with
    | some err => (some (str "could not unmarshal data: " ++ err), s, data.2)
    | none => (none, ⟨some data.1, s.filePath⟩, data.2)

/-- The method `(*Service).Reload`. -/
def Service.Reload (env : Env) (s : Service) (h : Heap) :
    Option GoString × Service × Heap :=
  s.LoadData env h

/-- The method `(*Service).GetAllData`: the returned slice and the heap after
the call. -/
def Service.GetAllData (s : Service) (h : Heap) : Slice × Heap :=
  -- Return a copy to prevent external modification
  let result := make h (h.len s.data)
  let copied := copy result.2 result.1 s.data
  (result.1, copied.2)

/-- The loop `for i := range s.data` of `GetDataByGUID`, with `n` iterations
left from index `i` on: the returned pointer (`none` is nil) and the heap after
the call; the outer `none` is a run-time panic. -/
def Service.scan (s : Service) (h : Heap) (guid : GoString) :
    Nat → Nat → Option (Option Ptr × Heap)
  | 0, _ => some (none, h)
  | n + 1, i =>
    match h.index s.data i with
    | none => none
    | some d =>
      if d.GUID = guid then
        -- Return a copy
        let result := h.alloc [d]
        some (some ⟨result.1, 0⟩, result.2)
      else s.scan h guid n (i + 1)

/-- The method `(*Service).GetDataByGUID`. -/
def Service.GetDataByGUID (s : Service) (h : Heap) (guid : GoString) :
    Option (Option Ptr × Heap) :=
  s.scan h guid (h.len s.data) 0

/-! ## Package `handler` -/

/-- The interface `service.DataService`, implemented over a state `σ`: each
method returns its result, with a `*model.Data` given as the record it points
to (`none` is nil), and the state it leaves. -/
structure DataService (σ : Type) where
  GetAllData : σ → List Data × σ
  GetDataByGUID : GoString → σ → Option Data × σ

/-- The JSON value written by a handler. -/
inductive Body where
  | error (message : GoString) (requestID : Option GoString)
  | record (d : Data)
  | records (ds : List Data)
  | status (value : GoString)
  deriving DecidableEq, Repr

/-- The response written by `c.JSON(code, obj)`. -/
structure Response where
  code : Nat
  body : Body
  deriving DecidableEq, Repr

/-- The method `(*Handler).GetAllData`. -/
def Handler.GetAllData {σ : Type} (svc : DataService σ) (st : σ) : Response × σ :=
  (⟨200, .records (svc.GetAllData st).1⟩, (svc.GetAllData st).2)

/-- The method `(*Handler).GetDataByID` for the path parameter `guid` and the
context value `requestID`: the response and the state of the service after the
call; `none` is a run-time panic. -/
def Handler.GetDataByID {σ : Type} (svc : DataService σ) (requestID : Option GoString)
    (guid : GoString) (st : σ) : Option (Response × σ) :=
  match ValidateGUID guid with
  | none => none
  | some false => some (⟨400, .error (str "Invalid GUID format") requestID⟩, st)
  | some true =>
    match svc.GetDataByGUID guid st with
    | (none, st1) => some (⟨404, .error (str "Data not found") requestID⟩, st1)
    | (some d, st1) => some (⟨200, .record d⟩, st1)

/-- The method `(*Handler).HealthCheck`. -/
def Handler.HealthCheck : Response := ⟨200, .status (str "healthy")⟩

/-! ## Package `config` -/

/-- The struct `config.Config`; a `time.Duration` is a number of nanoseconds. -/
structure Config where
  Port : GoString
  DataFilePath : GoString
  LogLevel : GoString
  JSONLog : Bool
  ReadTimeout : Int
  WriteTimeout : Int
  deriving DecidableEq, Repr

/-- The map literal `validLogLevels` of `Validate`. -/
def validLogLevels : List (GoString × Bool) :=
  [(str "debug", true), (str "info", true), (str "warn", true), (str "error", true)]

/-- The map index expression `m[k]` on a `map[string]bool`: the zero value
false for a missing key. -/
def mapIndex : List (GoString × Bool) → GoString → Bool
  | [], _ => false
  | (key, v) :: rest, k => if k = key then v else mapIndex rest k

/-- The method `(*Config).Validate`: the returned error (`none` is nil) and the
value of `*c` after the call. -/
def Config.Validate (c : Config) : Option GoString × Config :=
  if c.Port = str "" then (some (str "port cannot be empty"), c)
  else if c.DataFilePath = str "" then (some (str "data file path cannot be empty"), c)
  else if ¬ mapIndex validLogLevels c.LogLevel then
    (some (str "invalid log level: " ++ c.LogLevel
      ++ str " (must be debug, info, warn, or error)"), c)
  else (none, c)

/-! ## Observations of the store -/

/-- The snapshot held by a service: the records of `s.data`, in order. -/
def Service.snapshot (s : Service) (h : Heap) : List Data := h.elems s.data

/-- What the caller of `GetAllData` reads from the slice it receives. -/
def Service.allData (s : Service) (h : Heap) : List Data :=
  (s.GetAllData h).2.elems (s.GetAllData h).1

/-- What the caller of `GetDataByGUID` receives: `some none` for nil,
`some (some r)` for a pointer to the record `r`, `none` for a panic. -/
def Service.dataByGUID (s : Service) (h : Heap) (guid : GoString) : Option (Option Data) :=
  match s.GetDataByGUID h guid with
  | none => none
  | some (none, _) => some none
  | some (some p, h1) => (h1.load p).map some

/-! ## Concrete inputs -/

/-- The GUID used by the tests of the repository. -/
def testGUID : GoString := str "05024756-765e-41a9-89d7-1407436d9a58"

/-- The record of `testData` in `handler_test.go`. -/
def testRecord : Data :=
  ⟨testGUID, str "Iowa State University", str "Cy the Cardinal", str "Cyclones",
    str "Ames, IA, USA", str "42.026111,-93.648333", str "Division I", str "Big 12 Conference"⟩

/-- A heap whose only array holds `testRecord`. -/
def testHeap : Heap := [[testRecord]]

/-- A service whose snapshot in `testHeap` is `[testRecord]`. -/
def testService : Service := ⟨some 0, str "./data.json"⟩

/-- A record stored under an id that `ValidateGUID` rejects. -/
def badRecord : Data := ⟨str "this-is-a-bad-guid", str "Nowhere", [], [], [], [], [], []⟩

/-- A heap whose only array holds `badRecord`. -/
def badHeap : Heap := [[badRecord]]

/-- A world in which no file can be read. -/
def noFileEnv : Env := ⟨fun _ => .error (str "no such file or directory"), fun _ => ([], none)⟩

/-- A world in which the file is read but its decoding stops with an error
after one record. -/
def truncatedEnv : Env :=
  ⟨fun _ => .ok (str "[\x7b\"guid\":\"this-is-a-bad-guid\"\x7d,"),
    fun _ => ([badRecord], some (str "unexpected end of JSON input"))⟩

/-- A data service that only counts the calls it receives. -/
def countingService : DataService Nat := ⟨fun n => ([], n + 1), fun _ n => (none, n + 1)⟩

/-! ## Package `service`: construction -/

/-- The function `service.NewService`: the returned service (`none` is a nil
pointer, `some s` a pointer to a service in state `s`), the returned error
(`none` is nil) and the heap after the call. -/
def NewService (env : Env) (filePath : GoString) (h : Heap) :
    Option Service × Option GoString × Heap :=
  match Service.LoadData env ⟨none, filePath⟩ h with
  | (some err, _, h1) => (none, some (str "failed to load data: " ++ err), h1)
  | (none, s1, h1) => (some s1, none, h1)

/-! ## Package `config`: loading -/

/-- The environment of the process: the value of each variable that is set. -/
abbrev ProcEnv := GoString → Option GoString

/-- The function `os.Getenv`: the empty string for a variable that is not set. -/
def Getenv (e : ProcEnv) (key : GoString) : GoString := (e key).getD []

/-- The function `os.Setenv`. -/
def Setenv (e : ProcEnv) (key value : GoString) : ProcEnv :=
  fun k => if k = key then some value else e k

/-- The library function `godotenv.Load()` on the parsed contents of the file
`.env` (`none` when it cannot be read or parsed, and nothing is set then): each
of its variables is set unless the environment had it when the call began. -/
def godotenvLoad (dotenv : Option (List (GoString × GoString))) (e : ProcEnv) : ProcEnv :=
  match dotenv with
  | none => e
  | some envMap =>
    envMap.foldl (fun cur kv => if (e kv.1).isSome then cur else Setenv cur kv.1 kv.2) e

/-- The function `strconv.ParseBool`; `none` is a syntax error. -/
def ParseBool (s : GoString) : Option Bool :=
  if s = str "1" ∨ s = str "t" ∨ s = str "T" ∨ s = str "TRUE" ∨ s = str "true"
      ∨ s = str "True" then some true
  else if s = str "0" ∨ s = str "f" ∨ s = str "F" ∨ s = str "FALSE" ∨ s = str "false"
      ∨ s = str "False" then some false
  else none

/-- The function `config.getEnv`. -/
def getEnv (e : ProcEnv) (key defaultValue : GoString) : GoString :=
  if Getenv e key ≠ str "" then Getenv e key else defaultValue

/-- The function `config.getEnvBool`. -/
def getEnvBool (e : ProcEnv) (key : GoString) (defaultValue : Bool) : Bool :=
  if Getenv e key ≠ str "" then
    match ParseBool (Getenv e key) with
    | some parsed => parsed
    | none => defaultValue
  else defaultValue

/-- The function `config.getEnvDuration`, over the function
`time.ParseDuration` (`none` is a parse error). -/
def getEnvDuration (ParseDuration : GoString → Option Int) (e : ProcEnv) (key : GoString)
    (defaultValue : Int) : Int :=
  if Getenv e key ≠ str "" then
    match ParseDuration (Getenv e key) with
    | some parsed => parsed
    | none => defaultValue
  else defaultValue

/-- The constant `time.Second`, in nanoseconds. -/
def Second : Int := 1000000000

/-- The function `config.Load`: the returned configuration (`none` is nil), the
returned error (`none` is nil) and the environment after the call. -/
def Load (ParseDuration : GoString → Option Int)
    (dotenv : Option (List (GoString × GoString))) (e : ProcEnv) :
    Option Config × Option GoString × ProcEnv :=
  -- Try to load .env file, but don't fail if it doesn't exist
  let e1 := godotenvLoad dotenv e
  let cfg : Config :=
    ⟨getEnv e1 (str "PORT") (str "3000"),
      getEnv e1 (str "DATA_FILE_PATH") (str "./data.json"),
      getEnv e1 (str "LOG_LEVEL") (str "info"),
      getEnvBool e1 (str "JSON_LOG") false,
      getEnvDuration ParseDuration e1 (str "READ_TIMEOUT") (10 * Second),
      getEnvDuration ParseDuration e1 (str "WRITE_TIMEOUT") (10 * Second)⟩
  match (cfg.Validate).1 with
  | some err => (none, some (str "invalid configuration: " ++ err), e1)
  | none => (some (cfg.Validate).2, none, e1)

/-- An environment in which no variable is set. -/
def emptyEnv : ProcEnv := fun _ => none

/-- The environment of the second half of `TestLoad`. -/
def testEnv : ProcEnv := Setenv (Setenv emptyEnv (str "PORT") (str "8080")) (str "LOG_LEVEL")
  (str "debug")

/-- A file `.env` with the single line `PORT=8080`. -/
def portDotenv : Option (List (GoString × GoString)) := some [(str "PORT", str "8080")]

/-! ## The lock of the service and the steps of its methods -/

/-- The state of a `sync.RWMutex`: whether a writer holds it, and how many
readers hold it. -/
structure RWMutex where
  writer : Bool
  readers : Nat
  deriving DecidableEq, Repr

/-- The call `mu.Lock()`: it returns once no writer and no reader holds the
lock; `none` when the caller has to wait. -/
def RWMutex.Lock (mu : RWMutex) : Option RWMutex :=
  if mu.writer = false ∧ mu.readers = 0 then some ⟨true, 0⟩ else none

/-- The call `mu.Unlock()`. -/
def RWMutex.Unlock (mu : RWMutex) : RWMutex := ⟨false, mu.readers⟩

/-- The call `mu.RLock()`: it returns once no writer holds the lock; `none`
when the caller has to wait. (A `sync.RWMutex` also makes readers wait for a
writer that is waiting; every run under that rule is a run under this one.) -/
def RWMutex.RLock (mu : RWMutex) : Option RWMutex :=
  if mu.writer = false then some ⟨false, mu.readers + 1⟩ else none

/-- The call `mu.RUnlock()`. -/
def RWMutex.RUnlock (mu : RWMutex) : RWMutex := ⟨mu.writer, mu.readers - 1⟩

/-- What the goroutines share: the service, the heap and the lock `s.mu`. -/
structure Shared where
  svc : Service
  heap : Heap
  mu : RWMutex
  deriving DecidableEq, Repr

/-- The actions of `LoadData` and `GetAllData` that touch shared state or the
outside world, one per statement. -/
inductive Action where
  | Lock
  | ReadFile
  | Unmarshal
  | Assign
  | Unlock
  | RLock
  | Make
  | Copy
  | RUnlock
  deriving DecidableEq, Repr

/-- Where a call of `LoadData` stands: before `s.mu.Lock()`; before
`os.ReadFile`; before `json.Unmarshal` of the bytes read; before
`s.data = data`; returning an error or returning nil, the deferred
`s.mu.Unlock()` still to run; returned. -/
inductive LoadPC where
  | start
  | locked
  | read (file : List Nat)
  | decoded (data : Nat)
  | failing (err : GoString)
  | assigned
  | returned (err : Option GoString)
  deriving DecidableEq, Repr

/-- The next statement of a call of `LoadData`: the action done, where the call
stands then, and the shared state it leaves; `none` when the call waits for
the lock or has returned. -/
def LoadPC.step (env : Env) : LoadPC → Shared → Option (Action × LoadPC × Shared)
  | .start, sh =>
    match sh.mu.Lock with
    | none => none
    | some mu => some (.Lock, .locked, ⟨sh.svc, sh.heap, mu⟩)
  | .locked, sh =>
    match env.ReadFile sh.svc.filePath with
    | .error err => some (.ReadFile, .failing (str "could not read data file: " ++ err), sh)
    | .ok file => some (.ReadFile, .read file, sh)
  | .read file, sh =>
    let decoded := env.Unmarshal file
    let data := sh.heap.alloc decoded.1
    match decoded.2 with
    | some err =>
      some (.Unmarshal, .failing (str "could not unmarshal data: " ++ err),
        ⟨sh.svc, data.2, sh.mu⟩)
    | none => some (.Unmarshal, .decoded data.1, ⟨sh.svc, data.2, sh.mu⟩)
  | .decoded data, sh =>
    some (.Assign, .assigned, ⟨⟨some data, sh.svc.filePath⟩, sh.heap, sh.mu⟩)
  | .failing err, sh => some (.Unlock, .returned (some err), ⟨sh.svc, sh.heap, sh.mu.Unlock⟩)
  | .assigned, sh => some (.Unlock, .returned none, ⟨sh.svc, sh.heap, sh.mu.Unlock⟩)
  | .returned _, _ => none

/-- A call of `LoadData` run on its own for at most `n` statements: each action
done with the writer flag of the lock right after it, where the call stands at
the end, and the shared state it leaves. -/
def LoadPC.run (env : Env) : Nat → LoadPC → Shared → List (Action × Bool) × LoadPC × Shared
  | 0, pc, sh => ([], pc, sh)
  | n + 1, pc, sh =>
    match pc.step env sh with
    | none => ([], pc, sh)
    | some (a, pc1, sh1) =>
      ((a, sh1.mu.writer) :: (LoadPC.run env n pc1 sh1).1, (LoadPC.run env n pc1 sh1).2)

/-- Where a call of `GetAllData` stands: before `s.mu.RLock()`; before
`make`; before `copy` into the slice made; returning that slice, the deferred
`s.mu.RUnlock()` still to run; returned. -/
inductive ReadPC where
  | start
  | locked
  | made (result : Slice)
  | copied (result : Slice)
  | returned (result : Slice)
  deriving DecidableEq, Repr

/-- The next statement of a call of `GetAllData`; `none` when the call waits
for the lock or has returned. -/
def ReadPC.step : ReadPC → Shared → Option (Action × ReadPC × Shared)
  | .start, sh =>
    match sh.mu.RLock with
    | none => none
    | some mu => some (.RLock, .locked, ⟨sh.svc, sh.heap, mu⟩)
  | .locked, sh =>
    let result := make sh.heap (sh.heap.len sh.svc.data)
    some (.Make, .made result.1, ⟨sh.svc, result.2, sh.mu⟩)
  | .made result, sh =>
    let copied := copy sh.heap result sh.svc.data
    some (.Copy, .copied result, ⟨sh.svc, copied.2, sh.mu⟩)
  | .copied result, sh => some (.RUnlock, .returned result, ⟨sh.svc, sh.heap, sh.mu.RUnlock⟩)
  | .returned _, _ => none

/-- One goroutine that calls `Reload` and any number that call `GetAllData`, on
the same service. -/
structure System where
  shared : Shared
  writer : LoadPC
  readers : List ReadPC
  deriving DecidableEq, Repr

/-- A goroutine of a `System`. -/
inductive Thread where
  | writer
  | reader (i : Nat)
  deriving DecidableEq, Repr

/-- The system after the scheduler lets one goroutine run its next statement; a
goroutine that waits or has returned leaves the system as it is. -/
def System.step (env : Env) (t : Thread) (st : System) : System :=
  match t with
  | .writer =>
    match st.writer.step env st.shared with
    | none => st
    | some (_, pc, sh) => ⟨sh, pc, st.readers⟩
  | .reader i =>
    match st.readers[i]? with
    | none => st
    | some pc =>
      match pc.step st.shared with
      | none => st
      | some (_, pc1, sh) => ⟨sh, st.writer, st.readers.set i pc1⟩

/-- The system after a schedule, the list of the goroutines in the order in
which they run one statement each. -/
def System.run (env : Env) : List Thread → System → System
  | [], st => st
  | t :: ts, st => System.run env ts (st.step env t)

/-- The system before any goroutine has started: the lock is free, the reload
and the `n` calls of `GetAllData` are still to begin. -/
def System.init (s : Service) (h : Heap) (n : Nat) : System :=
  ⟨⟨s, h, ⟨false, 0⟩⟩, .start, List.replicate n .start⟩

/-- The snapshot that a reload installs when it runs from the given state: the
decoded sequence when the load succeeds, the snapshot held before otherwise. -/
def Service.reloaded (env : Env) (s : Service) (h : Heap) : List Data :=
  (s.Reload env h).2.1.snapshot (s.Reload env h).2.2

/-- A world in which the file reads and decodes to the single `badRecord`. -/
def okEnv : Env := ⟨fun _ => .ok (str "[]"), fun _ => ([badRecord], none)⟩

/-! ## Invariant of the concurrent system -/

/-- The points at which a call of `LoadData` holds `s.mu` for writing. -/
def LoadPC.holds : LoadPC → Bool
  | .locked => true
  | .read _ => true
  | .decoded _ => true
  | .failing _ => true
  | .assigned => true
  | _ => false

/-- The points at which a call of `GetAllData` holds `s.mu` for reading. -/
def ReadPC.holds : ReadPC → Bool
  | .locked => true
  | .made _ => true
  | .copied _ => true
  | _ => false

/-- The slice that a call of `GetAllData` has made so far, if any. -/
def ReadPC.result : ReadPC → Option Slice
  | .made r => some r
  | .copied r => some r
  | .returned r => some r
  | _ => none

/-- What holds of the local variables of a reload in progress: the bytes it
holds are those of the file, and the slice it decoded exists and holds `B`. -/
def LoadPC.ok (env : Env) (fp : GoString) (B : List Data) (h : Heap) : LoadPC → Prop
  | .read file => env.ReadFile fp = .ok file
  | .decoded d => d < h.length ∧ h.elems (some d) = B
  | _ => True

/-- What holds of the slice of a call of `GetAllData` in progress: it is an
array of its own, as long as the snapshot before the copy, and equal to `A` or
to `B` after it. -/
def ReadPC.ok (A B : List Data) (sh : Shared) (wpc : LoadPC) : ReadPC → Prop
  | .start => True
  | .locked => True
  | .made res => ∃ a, res = some a ∧ a < sh.heap.length ∧ sh.svc.data ≠ some a ∧
      wpc ≠ .decoded a ∧ (sh.heap.elems (some a)).length = (sh.svc.snapshot sh.heap).length
  | .copied res => ∃ a, res = some a ∧ a < sh.heap.length ∧ sh.svc.data ≠ some a ∧
      wpc ≠ .decoded a ∧ (sh.heap.elems (some a) = A ∨ sh.heap.elems (some a) = B)
  | .returned res => ∃ a, res = some a ∧ a < sh.heap.length ∧ sh.svc.data ≠ some a ∧
      wpc ≠ .decoded a ∧ (sh.heap.elems (some a) = A ∨ sh.heap.elems (some a) = B)

/-- The invariant of the runs of a `System` that starts with snapshot `A` and
whose reload, of the file `fp`, installs `B` when it succeeds. -/
structure Inv (env : Env) (fp : GoString) (A B : List Data) (st : System) : Prop where
  path : st.shared.svc.filePath = fp
  writerFlag : st.shared.mu.writer = st.writer.holds
  readerCount : st.shared.mu.readers = st.readers.countP ReadPC.holds
  exclusive : st.shared.mu.writer = true → st.shared.mu.readers = 0
  allocated : st.shared.heap.allocated st.shared.svc.data
  snapshot : st.shared.svc.snapshot st.shared.heap = A ∨
    st.shared.svc.snapshot st.shared.heap = B
  writerOk : st.writer.ok env fp B st.shared.heap
  readersOk : ∀ (i : Nat) (pc : ReadPC), st.readers[i]? = some pc →
    pc.ok A B st.shared st.writer
  distinct : ∀ (i j : Nat) (pi pj : ReadPC) (a : Nat), i ≠ j →
    st.readers[i]? = some pi → st.readers[j]? = some pj →
    pi.result = some (some a) → pj.result ≠ some (some a)

/-! ## Theorems: `ValidateGUID` -/

theorem decoderune_ge (s : GoString) : runeSelf ≤ (decoderune s).1 := by
  unfold decoderune
  split
  · simp [runeError, runeSelf]
  · split
    · split
      · split
        · simp only []
          split
          · simp only [runeSelf]; omega
          · simp [runeError, runeSelf]
        · simp [runeError, runeSelf]
      · simp [runeError, runeSelf]
    · split
      · split
        · split
          · simp only []
            split
            · simp only [runeSelf]; omega
            · simp [runeError, runeSelf]
          · simp [runeError, runeSelf]
        · simp [runeError, runeSelf]
      · split
        · split
          · split
            · simp only []
              split
              · simp only [runeSelf]; omega
              · simp [runeError, runeSelf]
            · simp [runeError, runeSelf]
          · simp [runeError, runeSelf]
        · simp [runeError, runeSelf]

theorem isHexRune_iff (r : Nat) :
    isHexRune r = true ↔ (48 ≤ r ∧ r ≤ 57) ∨ (97 ≤ r ∧ r ≤ 102) ∨ (65 ≤ r ∧ r ≤ 70) := by
  simp [isHexRune, Bool.or_eq_true, Bool.and_eq_true, decide_eq_true_eq]
  tauto

theorem isHexRune_lt (r : Nat) (h : isHexRune r = true) : r < runeSelf := by
  rw [isHexRune_iff] at h
  simp only [runeSelf]
  omega

theorem nextRune_of_lt (b : Nat) (rest : GoString) (h : b < runeSelf) :
    nextRune b rest = (b, 1) := by
  simp [nextRune, h]

theorem nextRune_not_hex (b : Nat) (rest : GoString) (h : ¬ b < runeSelf) :
    isHexRune (nextRune b rest).1 = false := by
  have h1 : nextRune b rest = decoderune (b :: rest) := by simp [nextRune, h]
  have h2 := decoderune_ge (b :: rest)
  cases hx : isHexRune (nextRune b rest).1 with
  | false => rfl
  | true =>
    have := isHexRune_lt _ hx
    rw [h1] at this
    omega

theorem hexLoop_rangeFrom (t : GoString) : ∀ (i : Nat),
    (∀ j b, t[j]? = some b → (i + j = 8 ∨ i + j = 13 ∨ i + j = 18 ∨ i + j = 23) → b = 45) →
    (hexLoop (rangeFrom i 0 t) = true ↔
      ∀ j b, t[j]? = some b → ¬ (i + j = 8 ∨ i + j = 13 ∨ i + j = 18 ∨ i + j = 23) →
        isHexRune b = true) := by
  induction t with
  | nil => intro i _; simp [rangeFrom, hexLoop]
  | cons b rest ih =>
    intro i H
    have H0 := H 0 b (by simp)
    have Hs : ∀ j c, rest[j]? = some c →
        (i + 1 + j = 8 ∨ i + 1 + j = 13 ∨ i + 1 + j = 18 ∨ i + 1 + j = 23) → c = 45 := by
      intro j c hj hd
      exact H (j + 1) c (by simpa using hj) (by omega)
    have IH := ih (i + 1) Hs
    have split_all : (∀ j c, (b :: rest)[j]? = some c →
          ¬ (i + j = 8 ∨ i + j = 13 ∨ i + j = 18 ∨ i + j = 23) → isHexRune c = true) ↔
        ((¬ (i = 8 ∨ i = 13 ∨ i = 18 ∨ i = 23) → isHexRune b = true) ∧
          ∀ j c, rest[j]? = some c →
            ¬ (i + 1 + j = 8 ∨ i + 1 + j = 13 ∨ i + 1 + j = 18 ∨ i + 1 + j = 23) →
              isHexRune c = true) := by
      constructor
      · intro h
        refine ⟨fun hd => h 0 b (by simp) (by simpa using hd), fun j c hj hd => ?_⟩
        exact h (j + 1) c (by simpa using hj) (by omega)
      · rintro ⟨h0, hs⟩ j c hj hd
        cases j with
        | zero =>
          simp at hj
          subst hj
          exact h0 (by simpa using hd)
        | succ j =>
          exact hs j c (by simpa using hj) (by omega)
    rw [split_all]
    by_cases hd : i = 8 ∨ i = 13 ∨ i = 18 ∨ i = 23
    · have hb : b = 45 := H0 (by simpa using hd)
      have hn : nextRune b rest = (b, 1) := nextRune_of_lt b rest (by simp [hb, runeSelf])
      simp only [rangeFrom, hexLoop, hn, if_pos hd]
      rw [IH]
      simp [hd]
    · by_cases hlt : b < runeSelf
      · have hn : nextRune b rest = (b, 1) := nextRune_of_lt b rest hlt
        simp only [rangeFrom, hexLoop, hn, if_neg hd]
        by_cases hx : isHexRune b = true
        · simp only [hx, not_true_eq_false, if_false]
          rw [IH]
          simp [hx]
        · simp [hx, hd]
      · have hx := nextRune_not_hex b rest hlt
        have hb : isHexRune b = false := by
          cases h : isHexRune b with
          | false => rfl
          | true => exact absurd (isHexRune_lt b h) hlt
        simp [rangeFrom, hexLoop, hd, hx, hb]

theorem dashLoop_of_length (s : GoString) (h : s.length = 36) :
    ∃ b8 b13 b18 b23, s[8]? = some b8 ∧ s[13]? = some b13 ∧ s[18]? = some b18 ∧
      s[23]? = some b23 ∧
      dashLoop s [8, 13, 18, 23] = some (b8 = 45 ∧ b13 = 45 ∧ b18 = 45 ∧ b23 = 45 : Bool) := by
  have h8 : 8 < s.length := by omega
  have h13 : 13 < s.length := by omega
  have h18 : 18 < s.length := by omega
  have h23 : 23 < s.length := by omega
  refine ⟨s[8], s[13], s[18], s[23], List.getElem?_eq_getElem h8, List.getElem?_eq_getElem h13,
    List.getElem?_eq_getElem h18, List.getElem?_eq_getElem h23, ?_⟩
  simp only [dashLoop, List.getElem?_eq_getElem h8, List.getElem?_eq_getElem h13,
    List.getElem?_eq_getElem h18, List.getElem?_eq_getElem h23]
  by_cases c8 : s[8] = 45 <;> by_cases c13 : s[13] = 45 <;> by_cases c18 : s[18] = 45 <;>
    by_cases c23 : s[23] = 45 <;> simp [c8, c13, c18, c23]


theorem ValidateGUID_cases (s : GoString) :
    (GUIDShape s ∧ ValidateGUID s = some true) ∨
      (¬ GUIDShape s ∧ ValidateGUID s = some false) := by
  by_cases hl : s.length = 36
  · obtain ⟨b8, b13, b18, b23, h8, h13, h18, h23, hd⟩ := dashLoop_of_length s hl
    by_cases hall : b8 = 45 ∧ b13 = 45 ∧ b18 = 45 ∧ b23 = 45
    · obtain ⟨e8, e13, e18, e23⟩ := hall
      subst e8 e13 e18 e23
      have hd1 : dashLoop s [8, 13, 18, 23] = some true := by simpa using hd
      have hv : ValidateGUID s = some (hexLoop (stringRange s)) := by
        simp [ValidateGUID, hl, hd1]
      have H : ∀ j b, s[j]? = some b → (0 + j = 8 ∨ 0 + j = 13 ∨ 0 + j = 18 ∨ 0 + j = 23) →
          b = 45 := by
        intro j b hj hpos
        rcases hpos with h | h | h | h <;>
          · simp only [Nat.zero_add] at h
            subst h
            simp_all
      have key := hexLoop_rangeFrom s 0 H
      simp only [Nat.zero_add] at key H
      have shape_iff : GUIDShape s ↔ hexLoop (stringRange s) = true := by
        unfold stringRange
        rw [key]
        constructor
        · rintro ⟨_, hs⟩ j b hj hpos
          have := hs j b hj
          rw [if_neg hpos] at this
          exact (isHexRune_iff b).2 this
        · intro hs
          refine ⟨hl, fun j b hj => ?_⟩
          by_cases hpos : j = 8 ∨ j = 13 ∨ j = 18 ∨ j = 23
          · rw [if_pos hpos]; exact H j b hj hpos
          · rw [if_neg hpos]; exact (isHexRune_iff b).1 (hs j b hj hpos)
      by_cases hx : hexLoop (stringRange s) = true
      · exact Or.inl ⟨shape_iff.2 hx, by rw [hv, hx]⟩
      · refine Or.inr ⟨fun hs => hx (shape_iff.1 hs), ?_⟩
        rw [hv]
        simpa using hx
    · have hd1 : dashLoop s [8, 13, 18, 23] = some false := by
        rw [hd]; simpa using hall
      refine Or.inr ⟨?_, by simp [ValidateGUID, hl, hd1]⟩
      rintro ⟨_, hs⟩
      apply hall
      have g8 := hs 8 b8 h8
      have g13 := hs 13 b13 h13
      have g18 := hs 18 b18 h18
      have g23 := hs 23 b23 h23
      simp at g8 g13 g18 g23
      exact ⟨g8, g13, g18, g23⟩
  · exact Or.inr ⟨fun hs => hl hs.1, by simp [ValidateGUID, hl]⟩

/-- C1: `ValidateGUID s` is true exactly when `s` has 36 bytes, hyphens at byte
positions 8, 13, 18 and 23 and a hexadecimal digit (0-9, a-f, A-F) at every
other position; on every other string it is false. -/
theorem ValidateGUID_iff_shape (s : GoString) :
    (ValidateGUID s = some true ↔ GUIDShape s) ∧
      (ValidateGUID s = some false ↔ ¬ GUIDShape s) := by
  rcases ValidateGUID_cases s with ⟨hs, hv⟩ | ⟨hs, hv⟩
  · simp [hs, hv]
  · simp [hs, hv]

/-- The cases of `TestValidateGUID`, and two strings with bytes outside ASCII. -/
theorem ValidateGUID_tests :
    ValidateGUID (str "05024756-765e-41a9-89d7-1407436d9a58") = some true ∧
    ValidateGUID (str "05024756-765E-41A9-89D7-1407436D9A58") = some true ∧
    ValidateGUID (str "short") = some false ∧
    ValidateGUID (str "this-is-a-bad-guid") = some false ∧
    ValidateGUID (str "05024756765e41a989d71407436d9a58") = some false ∧
    ValidateGUID (str "0502475-6765e-41a9-89d7-1407436d9a58") = some false ∧
    ValidateGUID (str "05024756-765g-41a9-89d7-1407436d9a58") = some false ∧
    ValidateGUID (str "") = some false ∧
    ValidateGUID (str "05024756-765é-41a9-89d7-140743d9a58") = some false ∧
    ValidateGUID (str "05024756-765e-41a9-89d7-1407436d9a5" ++ [0xFF]) = some false := by
  refine ⟨by decide, by decide, by decide, by decide, by decide, by decide, by decide,
    by decide, by decide, by decide⟩

/-! ## Theorems: package `handler` -/

/-- C2: `GetDataByID` always answers, with exactly one of three outcomes: 400
and "Invalid GUID format" exactly when `ValidateGUID` rejects the parameter,
the service then being left untouched; 404 and "Data not found" exactly when
the parameter is valid and the service returns nil; 200 and the record
returned by the service otherwise. -/
theorem GetDataByID_outcomes {σ : Type} (svc : DataService σ) (requestID : Option GoString)
    (guid : GoString) (st : σ) :
    ∃ resp st1, Handler.GetDataByID svc requestID guid st = some (resp, st1) ∧
      (resp.code = 400 ∨ resp.code = 404 ∨ resp.code = 200) ∧
      (resp.code = 400 ↔ ValidateGUID guid = some false) ∧
      (resp.code = 400 → resp.body = .error (str "Invalid GUID format") requestID ∧ st1 = st) ∧
      (resp.code = 404 ↔
        ValidateGUID guid = some true ∧ (svc.GetDataByGUID guid st).1 = none) ∧
      (resp.code = 404 → resp.body = .error (str "Data not found") requestID) ∧
      (resp.code = 200 ↔
        ValidateGUID guid = some true ∧ ∃ d, (svc.GetDataByGUID guid st).1 = some d) ∧
      (∀ d, resp = ⟨200, .record d⟩ ↔
        ValidateGUID guid = some true ∧ (svc.GetDataByGUID guid st).1 = some d) ∧
      (ValidateGUID guid = some true → st1 = (svc.GetDataByGUID guid st).2) ∧
      (Body.error (str "Invalid GUID format") requestID
        ≠ Body.error (str "Data not found") requestID) := by
  have hdistinct : Body.error (str "Invalid GUID format") requestID
      ≠ Body.error (str "Data not found") requestID := by
    intro hc
    injection hc with hmsg _
    revert hmsg
    decide
  rcases ValidateGUID_cases guid with ⟨_, hv⟩ | ⟨_, hv⟩
  · cases hsvc : svc.GetDataByGUID guid st with
    | mk found st1 =>
      cases found with
      | none =>
        refine ⟨⟨404, .error (str "Data not found") requestID⟩, st1, ?_, ?_⟩
        · simp [Handler.GetDataByID, hv, hsvc]
        · simp [hv, hdistinct]
      | some d =>
        refine ⟨⟨200, .record d⟩, st1, ?_, ?_⟩
        · simp [Handler.GetDataByID, hv, hsvc]
        · simp [hv, hdistinct]
  · refine ⟨⟨400, .error (str "Invalid GUID format") requestID⟩, st, ?_, ?_⟩
    · simp [Handler.GetDataByID, hv]
    · simp [hv, hdistinct]

/-- The scenario of the handler tests on a service that counts its calls: the
malformed id is answered 400 without a call, the unknown id 404 after one. -/
theorem GetDataByID_counting :
    Handler.GetDataByID countingService none (str "this-is-a-bad-guid") 0
      = some (⟨400, .error (str "Invalid GUID format") none⟩, 0) ∧
    Handler.GetDataByID countingService none (str "00000000-0000-0000-0000-000000000000") 0
      = some (⟨404, .error (str "Data not found") none⟩, 1) := by
  refine ⟨by decide, by decide⟩

/-! ## Theorems: heap -/

theorem elems_alloc (h : Heap) (xs : List Data) (sl : Slice) (hs : h.allocated sl) :
    (h.alloc xs).2.elems sl = h.elems sl := by
  cases sl with
  | none => rfl
  | some a =>
    have ha : a < h.length := hs
    simp [Heap.elems, Heap.alloc, List.getD_eq_getElem?_getD, List.getElem?_append_left ha]

theorem elems_alloc_new (h : Heap) (xs : List Data) :
    (h.alloc xs).2.elems (some (h.alloc xs).1) = xs := by
  simp [Heap.elems, Heap.alloc, List.getD_eq_getElem?_getD]

theorem load_alloc_new (h : Heap) (d : Data) :
    (h.alloc [d]).2.load ⟨(h.alloc [d]).1, 0⟩ = some d := by
  simp [Heap.load, Heap.alloc, List.getD_eq_getElem?_getD]

theorem elems_store (h : Heap) (p : Ptr) (v : Data) (sl : Slice) (hne : sl ≠ some p.arr) :
    (h.store p v).elems sl = h.elems sl := by
  cases sl with
  | none => rfl
  | some a =>
    have hne1 : p.arr ≠ a := fun e => hne (by rw [e])
    simp [Heap.elems, Heap.store, List.getD_eq_getElem?_getD, List.getElem?_set_ne hne1]

theorem allocated_ne_length (h : Heap) (sl : Slice) (hs : h.allocated sl) :
    sl ≠ some h.length := by
  cases sl with
  | none => simp
  | some a =>
    have ha : a < h.length := hs
    simp
    omega

/-! ## Theorems: package `service` -/

theorem scan_eq (s : Service) (h : Heap) (guid : GoString) : ∀ (n i : Nat),
    i + n = (s.snapshot h).length →
    s.scan h guid n i =
      some (match ((s.snapshot h).drop i).find? (fun d => d.GUID = guid) with
        | none => (none, h)
        | some d => (some ⟨(h.alloc [d]).1, 0⟩, (h.alloc [d]).2)) := by
  intro n
  induction n with
  | zero =>
    intro i hi
    have : (s.snapshot h).drop i = [] := List.drop_eq_nil_of_le (by omega)
    simp [Service.scan, this]
  | succ n ih =>
    intro i hi
    have hlt : i < (s.snapshot h).length := by omega
    have hidx : h.index s.data i = some ((s.snapshot h)[i]) := by
      simp only [Heap.index, Service.snapshot]
      exact List.getElem?_eq_getElem hlt
    have hdrop : (s.snapshot h).drop i = (s.snapshot h)[i] :: (s.snapshot h).drop (i + 1) :=
      List.drop_eq_getElem_cons hlt
    rw [hdrop]
    simp only [Service.scan, hidx, List.find?_cons]
    by_cases hg : (s.snapshot h)[i].GUID = guid
    · simp [hg]
    · simp only [hg, if_false, decide_False]
      exact ih (i + 1) (by omega)

theorem GetDataByGUID_eq (s : Service) (h : Heap) (guid : GoString) :
    s.GetDataByGUID h guid =
      some (match (s.snapshot h).find? (fun d => d.GUID = guid) with
        | none => (none, h)
        | some d => (some ⟨(h.alloc [d]).1, 0⟩, (h.alloc [d]).2)) := by
  have := scan_eq s h guid (h.len s.data) 0 (by simp [Heap.len, Service.snapshot])
  simpa [Service.GetDataByGUID] using this

theorem dataByGUID_eq (s : Service) (h : Heap) (guid : GoString) :
    s.dataByGUID h guid = some ((s.snapshot h).find? (fun d => d.GUID = guid)) := by
  unfold Service.dataByGUID
  rw [GetDataByGUID_eq]
  cases hf : (s.snapshot h).find? (fun d => d.GUID = guid) with
  | none => rfl
  | some d => simp [load_alloc_new]

theorem elems_make (h : Heap) (sl : Slice) :
    (make h (h.len sl)).2.elems sl = h.elems sl := by
  cases sl with
  | none => rfl
  | some a =>
    rcases Nat.lt_trichotomy a h.length with ha | ha | ha
    · exact elems_alloc h _ (some a) ha
    · subst ha
      simp [make, Heap.alloc, Heap.elems, Heap.len, List.getD_eq_getElem?_getD]
    · have h1 : h.length ≤ a := by omega
      have h2 : h.length + 1 ≤ a := by omega
      simp [make, Heap.alloc, Heap.elems, List.getD_eq_getElem?_getD,
        List.getElem?_eq_none, h1, h2]

theorem GetAllData_fst (s : Service) (h : Heap) : (s.GetAllData h).1 = some h.length := by
  simp [Service.GetAllData, make, Heap.alloc]

theorem GetAllData_snd (s : Service) (h : Heap) :
    (s.GetAllData h).2 = h ++ [s.snapshot h] := by
  have hsrc : (h ++ [List.replicate (h.elems s.data).length Data.zero]).elems s.data
      = h.elems s.data := elems_make h s.data
  have hdst : (h ++ [List.replicate (h.elems s.data).length Data.zero]).elems (some h.length)
      = List.replicate (h.elems s.data).length Data.zero := elems_alloc_new h _
  simp only [Service.GetAllData, copy, make, Heap.alloc, Heap.len, hsrc, hdst]
  simp [Service.snapshot]

theorem allData_eq (s : Service) (h : Heap) : s.allData h = s.snapshot h := by
  simp [Service.allData, GetAllData_fst, GetAllData_snd, Heap.elems,
    List.getD_eq_getElem?_getD]

theorem find?_first {α : Type} (p : α → Bool) (xs : List α) : ∀ (i : Nat) (r : α),
    xs[i]? = some r → p r = true →
    (∀ j r', j < i → xs[j]? = some r' → p r' = false) → xs.find? p = some r := by
  induction xs with
  | nil => intro i r hi; simp at hi
  | cons x rest ih =>
    intro i r hi hp hmin
    cases i with
    | zero =>
      simp at hi
      subst hi
      simp [List.find?_cons, hp]
    | succ i =>
      have hx : p x = false := hmin 0 x (by omega) (by simp)
      simp only [List.find?_cons, hx]
      refine ih i r (by simpa using hi) hp (fun j r' hj hr' => ?_)
      exact hmin (j + 1) r' (by omega) (by simpa using hr')

theorem snapshot_alloc (s : Service) (h : Heap) (xs : List Data) (hs : h.allocated s.data) :
    s.snapshot (h.alloc xs).2 = s.snapshot h :=
  elems_alloc h xs s.data hs

theorem snapshot_GetAllData (s : Service) (h : Heap) (hs : h.allocated s.data) :
    s.snapshot (s.GetAllData h).2 = s.snapshot h := by
  rw [GetAllData_snd]
  exact elems_alloc h (s.snapshot h) s.data hs

theorem snapshot_GetDataByGUID (s : Service) (h : Heap) (hs : h.allocated s.data)
    (guid : GoString) (p : Option Ptr) (h1 : Heap)
    (hcall : s.GetDataByGUID h guid = some (p, h1)) : s.snapshot h1 = s.snapshot h := by
  rw [GetDataByGUID_eq] at hcall
  cases hf : (s.snapshot h).find? (fun d => d.GUID = guid) with
  | none =>
    simp [hf] at hcall
    rw [← hcall.2]
  | some d =>
    simp [hf] at hcall
    rw [← hcall.2]
    exact snapshot_alloc s h [d] hs

theorem reads_of_snapshot (s : Service) (h h2 : Heap) (hsnap : s.snapshot h2 = s.snapshot h) :
    s.allData h2 = s.allData h ∧ ∀ g, s.dataByGUID h2 g = s.dataByGUID h g := by
  refine ⟨by rw [allData_eq, allData_eq, hsnap], fun g => ?_⟩
  rw [dataByGUID_eq, dataByGUID_eq, hsnap]

/-- C3: `GetDataByGUID` returns nil exactly when no record of the snapshot has
the queried GUID; otherwise it returns a pointer to a record equal to the one
at the smallest index whose GUID is the queried one. -/
theorem GetDataByGUID_first_match (s : Service) (h : Heap) (guid : GoString) :
    ∃ p h1, s.GetDataByGUID h guid = some (p, h1) ∧
      (p = none ↔ ∀ r ∈ s.snapshot h, r.GUID ≠ guid) ∧
      (∀ (i : Nat) (r : Data), (s.snapshot h)[i]? = some r → r.GUID = guid →
        (∀ (j : Nat) (r' : Data), j < i → (s.snapshot h)[j]? = some r' → r'.GUID ≠ guid) →
        ∃ q, p = some q ∧ h1.load q = some r) := by
  rw [GetDataByGUID_eq]
  cases hf : (s.snapshot h).find? (fun d => d.GUID = guid) with
  | none =>
    refine ⟨none, h, rfl, ?_, ?_⟩
    · simpa [List.find?_eq_none] using hf
    · intro i r hi hr hmin
      have := find?_first (fun d => decide (d.GUID = guid)) (s.snapshot h) i r hi (by simpa using hr)
        (fun j r' hj hr' => by simpa using hmin j r' hj hr')
      rw [hf] at this
      cases this
  | some d =>
    refine ⟨some ⟨(h.alloc [d]).1, 0⟩, (h.alloc [d]).2, rfl, ?_, ?_⟩
    · have hd := List.find?_some hf
      have hm := List.mem_of_find?_eq_some hf
      simp only [decide_eq_true_eq] at hd
      constructor
      · intro hc; cases hc
      · intro hall; exact absurd hd (hall d hm)
    · intro i r hi hr hmin
      have := find?_first (fun d => decide (d.GUID = guid)) (s.snapshot h) i r hi (by simpa using hr)
        (fun j r' hj hr' => by simpa using hmin j r' hj hr')
      rw [hf] at this
      cases this
      exact ⟨_, rfl, load_alloc_new h d⟩

/-- C4: the lookup compares GUIDs byte for byte: a record it returns has
exactly the queried GUID, and a snapshot whose only record has the lower-case
GUID yields nil for the upper-case query, though `ValidateGUID` accepts both. -/
theorem GetDataByGUID_case_sensitive :
    (∀ (s : Service) (h : Heap) (guid : GoString) (q : Ptr) (h1 : Heap) (r : Data),
      s.GetDataByGUID h guid = some (some q, h1) → h1.load q = some r → r.GUID = guid) ∧
    (∀ (s : Service) (h : Heap) (d : Data), s.snapshot h = [d] →
      d.GUID = str "05024756-765e-41a9-89d7-1407436d9a58" →
      s.GetDataByGUID h (str "05024756-765E-41A9-89D7-1407436D9A58") = some (none, h)) ∧
    ValidateGUID (str "05024756-765e-41a9-89d7-1407436d9a58") = some true ∧
    ValidateGUID (str "05024756-765E-41A9-89D7-1407436D9A58") = some true := by
  refine ⟨?_, ?_, by decide, by decide⟩
  · intro s h guid q h1 r hcall hload
    rw [GetDataByGUID_eq] at hcall
    cases hf : (s.snapshot h).find? (fun d => d.GUID = guid) with
    | none => simp [hf] at hcall
    | some d =>
      simp [hf] at hcall
      obtain ⟨hq, hh⟩ := hcall
      subst hq hh
      rw [load_alloc_new] at hload
      cases hload
      simpa using List.find?_some hf
  · intro s h d hsnap hd
    rw [GetDataByGUID_eq, hsnap]
    have hne : d.GUID ≠ str "05024756-765E-41A9-89D7-1407436D9A58" := by
      rw [hd]; decide
    simp [List.find?_cons, hne]

/-- C5: `GetAllData` always returns, and the slice it returns holds exactly
the records of the snapshot, in the same order (so the same number of them,
and none for an empty snapshot). -/
theorem GetAllData_eq_snapshot (s : Service) (h : Heap) :
    (s.GetAllData h).2.elems (s.GetAllData h).1 = s.snapshot h ∧
      (s.GetAllData h).2.len (s.GetAllData h).1 = h.len s.data ∧
      (∀ i, (s.GetAllData h).2.index (s.GetAllData h).1 i = h.index s.data i) ∧
      (s.snapshot h = [] → (s.GetAllData h).2.elems (s.GetAllData h).1 = []) := by
  have key : (s.GetAllData h).2.elems (s.GetAllData h).1 = s.snapshot h := allData_eq s h
  refine ⟨key, ?_, ?_, ?_⟩
  · simp only [Heap.len, key]; rfl
  · intro i; simp only [Heap.index, key]; rfl
  · intro he; rw [key, he]

/-- C6: the slice returned by `GetAllData` and the record returned by
`GetDataByGUID` share no storage with the store: the reads leave the snapshot
as it was, and so does any later store through the returned slice or pointer,
after which both reads give the results they gave before. -/
theorem reads_are_isolated (s : Service) (h : Heap) (hs : h.allocated s.data) :
    s.snapshot (s.GetAllData h).2 = s.snapshot h ∧
    (∀ (guid : GoString) (p : Option Ptr) (h1 : Heap),
      s.GetDataByGUID h guid = some (p, h1) → s.snapshot h1 = s.snapshot h) ∧
    (∀ (a i : Nat) (v : Data), (s.GetAllData h).1 = some a →
      s.snapshot ((s.GetAllData h).2.store ⟨a, i⟩ v) = s.snapshot h ∧
      s.allData ((s.GetAllData h).2.store ⟨a, i⟩ v) = s.allData h ∧
      ∀ g, s.dataByGUID ((s.GetAllData h).2.store ⟨a, i⟩ v) g = s.dataByGUID h g) ∧
    (∀ (guid : GoString) (q : Ptr) (h1 : Heap) (v : Data),
      s.GetDataByGUID h guid = some (some q, h1) →
      s.snapshot (h1.store q v) = s.snapshot h ∧
      s.allData (h1.store q v) = s.allData h ∧
      ∀ g, s.dataByGUID (h1.store q v) g = s.dataByGUID h g) := by
  refine ⟨snapshot_GetAllData s h hs, fun guid p h1 => snapshot_GetDataByGUID s h hs guid p h1,
    ?_, ?_⟩
  · intro a i v ha
    rw [GetAllData_fst] at ha
    cases ha
    have hsnap : s.snapshot ((s.GetAllData h).2.store ⟨h.length, i⟩ v) = s.snapshot h := by
      unfold Service.snapshot
      rw [elems_store _ _ _ _ (allocated_ne_length h s.data hs)]
      exact snapshot_GetAllData s h hs
    exact ⟨hsnap, reads_of_snapshot s h _ hsnap⟩
  · intro guid q h1 v hcall
    have hsnap1 := snapshot_GetDataByGUID s h hs guid _ h1 hcall
    rw [GetDataByGUID_eq] at hcall
    have hq : q.arr = h.length := by
      cases hf : (s.snapshot h).find? (fun d => d.GUID = guid) with
      | none => simp [hf] at hcall
      | some d =>
        simp [hf] at hcall
        rw [← hcall.1]
        rfl
    have hsnap : s.snapshot (h1.store q v) = s.snapshot h := by
      unfold Service.snapshot
      rw [elems_store _ _ _ _ (by rw [hq]; exact allocated_ne_length h s.data hs)]
      exact hsnap1
    exact ⟨hsnap, reads_of_snapshot s h _ hsnap⟩

theorem testService_allocated : testHeap.allocated testService.data := by
  show 0 < 1
  decide

/-- Witness of C6 on the store that holds `testRecord`. -/
theorem reads_are_isolated_witness :
    testHeap.allocated testService.data ∧
    testService.snapshot ((testService.GetAllData testHeap).2.store ⟨1, 0⟩ badRecord)
      = [testRecord] :=
  ⟨testService_allocated,
    (((reads_are_isolated testService testHeap testService_allocated).2.2.1
      1 0 badRecord (by decide)).1).trans (by decide)⟩

/-! ## Theorems: loading -/

theorem LoadData_read_error (env : Env) (s : Service) (h : Heap) (e : GoString)
    (hr : env.ReadFile s.filePath = .error e) :
    s.LoadData env h = (some (str "could not read data file: " ++ e), s, h) := by
  simp [Service.LoadData, hr]

theorem LoadData_decode_error (env : Env) (s : Service) (h : Heap) (file : List Nat)
    (e : GoString) (hr : env.ReadFile s.filePath = .ok file)
    (hu : (env.Unmarshal file).2 = some e) :
    s.LoadData env h = (some (str "could not unmarshal data: " ++ e), s,
      (h.alloc (env.Unmarshal file).1).2) := by
  simp [Service.LoadData, hr, hu]

theorem LoadData_ok (env : Env) (s : Service) (h : Heap) (file : List Nat)
    (hr : env.ReadFile s.filePath = .ok file) (hu : (env.Unmarshal file).2 = none) :
    s.LoadData env h = (none, ⟨some (h.alloc (env.Unmarshal file).1).1, s.filePath⟩,
      (h.alloc (env.Unmarshal file).1).2) := by
  simp [Service.LoadData, hr, hu]

/-- C7: a load (or reload) that fails, because the file cannot be read or its
bytes do not decode, returns an error and leaves the service and its snapshot
as they were, so a later `GetAllData` gives the data from before the call. -/
theorem LoadData_failure_atomic (env : Env) (s : Service) (h : Heap)
    (hs : h.allocated s.data) :
    (((∃ e, env.ReadFile s.filePath = .error e) ∨
        (∃ file e, env.ReadFile s.filePath = .ok file ∧ (env.Unmarshal file).2 = some e)) →
      (s.LoadData env h).1 ≠ none) ∧
    ((s.LoadData env h).1 ≠ none →
      (s.LoadData env h).2.1 = s ∧
      (s.LoadData env h).2.1.snapshot (s.LoadData env h).2.2 = s.snapshot h ∧
      (s.LoadData env h).2.1.allData (s.LoadData env h).2.2 = s.snapshot h) ∧
    s.Reload env h = s.LoadData env h := by
  refine ⟨?_, ?_, rfl⟩
  · rintro (⟨e, he⟩ | ⟨file, e, hf, he⟩)
    · rw [LoadData_read_error env s h e he]; simp
    · rw [LoadData_decode_error env s h file e hf he]; simp
  · intro herr
    cases hr : env.ReadFile s.filePath with
    | error e =>
      rw [LoadData_read_error env s h e hr]
      exact ⟨rfl, rfl, allData_eq s h⟩
    | ok file =>
      cases hu : (env.Unmarshal file).2 with
      | none =>
        rw [LoadData_ok env s h file hr hu] at herr
        exact absurd rfl herr
      | some e =>
        rw [LoadData_decode_error env s h file e hr hu]
        have hsnap := snapshot_alloc s h (env.Unmarshal file).1 hs
        refine ⟨rfl, hsnap, ?_⟩
        show s.allData (h.alloc (env.Unmarshal file).1).2 = s.snapshot h
        rw [allData_eq, hsnap]

/-- Witness of C7: reloading `testService` where no file can be read. -/
theorem LoadData_failure_atomic_witness :
    testHeap.allocated testService.data ∧
    ((testService.LoadData noFileEnv testHeap).1 ≠ none →
      (testService.LoadData noFileEnv testHeap).2.1 = testService ∧
      (testService.LoadData noFileEnv testHeap).2.1.snapshot
        (testService.LoadData noFileEnv testHeap).2.2 = testService.snapshot testHeap ∧
      (testService.LoadData noFileEnv testHeap).2.1.allData
        (testService.LoadData noFileEnv testHeap).2.2 = testService.snapshot testHeap) :=
  ⟨testService_allocated,
    (LoadData_failure_atomic noFileEnv testService testHeap testService_allocated).2.1⟩

/-- A reload whose decoding fails after one record: the error is returned, the
partly decoded slice stays unreferenced, and the store still serves
`testRecord`. -/
theorem Reload_truncated :
    (testService.Reload truncatedEnv testHeap).1
      = some (str "could not unmarshal data: unexpected end of JSON input") ∧
    (testService.Reload truncatedEnv testHeap).2.1 = testService ∧
    (testService.Reload truncatedEnv testHeap).2.2 = [[testRecord], [badRecord]] ∧
    testService.allData (testService.Reload truncatedEnv testHeap).2.2 = [testRecord] := by
  refine ⟨by decide, by decide, by decide, by decide⟩

/-- C8: a load returns nil exactly when the file is read and decoded without
error, and then the decoded sequence is the whole new snapshot: `GetAllData`
gives it verbatim, and a source of a single record `r` makes
`GetDataByGUID` of its GUID return a record equal to `r`. -/
theorem LoadData_success_verbatim (env : Env) (s : Service) (h : Heap) :
    (∀ file, env.ReadFile s.filePath = .ok file → (env.Unmarshal file).2 = none →
      (s.LoadData env h).1 = none) ∧
    ((s.LoadData env h).1 = none →
      ∃ file, env.ReadFile s.filePath = .ok file ∧ (env.Unmarshal file).2 = none ∧
        (s.LoadData env h).2.1.snapshot (s.LoadData env h).2.2 = (env.Unmarshal file).1 ∧
        (s.LoadData env h).2.1.allData (s.LoadData env h).2.2 = (env.Unmarshal file).1 ∧
        ∀ r, (env.Unmarshal file).1 = [r] →
          (s.LoadData env h).2.1.dataByGUID (s.LoadData env h).2.2 r.GUID = some (some r)) := by
  constructor
  · intro file hf hu
    rw [LoadData_ok env s h file hf hu]
  · intro hok
    cases hr : env.ReadFile s.filePath with
    | error e =>
      rw [LoadData_read_error env s h e hr] at hok
      cases hok
    | ok file =>
      cases hu : (env.Unmarshal file).2 with
      | some e =>
        rw [LoadData_decode_error env s h file e hr hu] at hok
        cases hok
      | none =>
        rw [LoadData_ok env s h file hr hu]
        have hsnap : (⟨some (h.alloc (env.Unmarshal file).1).1, s.filePath⟩ : Service).snapshot
            (h.alloc (env.Unmarshal file).1).2 = (env.Unmarshal file).1 :=
          elems_alloc_new h _
        refine ⟨file, rfl, hu, hsnap, ?_, ?_⟩
        · show Service.allData _ _ = _
          rw [allData_eq, hsnap]
        · intro r hr1
          show Service.dataByGUID _ _ _ = _
          rw [dataByGUID_eq, hsnap, hr1]
          simp [List.find?_cons]

/-! ## Theorems: lookups of invalid identifiers -/

/-- C9, counterexample: a record stored under the malformed id
`this-is-a-bad-guid` is returned when the store is queried with that id. -/
theorem bad_id_record_is_returned :
    ValidateGUID (str "this-is-a-bad-guid") = some false ∧
    testService.GetDataByGUID badHeap (str "this-is-a-bad-guid")
      = some (some ⟨1, 0⟩, [[badRecord], [badRecord]]) ∧
    testService.dataByGUID badHeap (str "this-is-a-bad-guid") = some (some badRecord) := by
  refine ⟨by decide, by decide, by decide⟩

/-- C9, amended: when every record of the snapshot has a GUID that
`ValidateGUID` accepts, the lookup of an id that `ValidateGUID` rejects
returns nil. -/
theorem GetDataByGUID_invalid_id (s : Service) (h : Heap) (id : GoString)
    (hvalid : ∀ r ∈ s.snapshot h, ValidateGUID r.GUID = some true)
    (hid : ValidateGUID id = some false) :
    s.GetDataByGUID h id = some (none, h) := by
  rw [GetDataByGUID_eq]
  have hnone : (s.snapshot h).find? (fun d => d.GUID = id) = none := by
    rw [List.find?_eq_none]
    intro r hr hg
    have h1 := hvalid r hr
    simp only [decide_eq_true_eq] at hg
    rw [hg, hid] at h1
    cases h1
  rw [hnone]

/-- Witness of the amended C9 on the store that holds `testRecord`. -/
theorem GetDataByGUID_invalid_id_witness :
    (∀ r ∈ testService.snapshot testHeap, ValidateGUID r.GUID = some true) ∧
    ValidateGUID (str "this-is-a-bad-guid") = some false ∧
    testService.GetDataByGUID testHeap (str "this-is-a-bad-guid") = some (none, testHeap) :=
  ⟨by decide, by decide,
    GetDataByGUID_invalid_id testService testHeap (str "this-is-a-bad-guid")
      (by decide) (by decide)⟩

/-! ## Theorems: package `config` -/

theorem mapIndex_validLogLevels (k : GoString) :
    mapIndex validLogLevels k = true ↔
      (k = str "debug" ∨ k = str "info" ∨ k = str "warn" ∨ k = str "error") := by
  simp only [validLogLevels, mapIndex]
  by_cases h1 : k = str "debug"
  · simp [h1]
  · by_cases h2 : k = str "info"
    · simp [h2]
    · by_cases h3 : k = str "warn"
      · simp [h3]
      · by_cases h4 : k = str "error"
        · simp [h4]
        · simp [h1, h2, h3, h4]

/-- C10: `Validate` returns an error exactly when the port is empty, the data
file path is empty, or the log level is none of debug, info, warn, error; the
other three fields play no part, and the configuration is left as it was. -/
theorem Validate_error_iff (c : Config) :
    ((c.Validate).1 ≠ none ↔
      (c.Port = str "" ∨ c.DataFilePath = str "" ∨
        ¬ (c.LogLevel = str "debug" ∨ c.LogLevel = str "info" ∨ c.LogLevel = str "warn"
          ∨ c.LogLevel = str "error"))) ∧
    (∀ (j : Bool) (r w : Int),
      ((⟨c.Port, c.DataFilePath, c.LogLevel, j, r, w⟩ : Config).Validate).1 = (c.Validate).1) ∧
    (c.Validate).2 = c := by
  have hl := mapIndex_validLogLevels c.LogLevel
  refine ⟨?_, ?_, ?_⟩
  · unfold Config.Validate
    by_cases hp : c.Port = str ""
    · simp [hp]
    · by_cases hd : c.DataFilePath = str ""
      · simp [hp, hd]
      · by_cases hm : mapIndex validLogLevels c.LogLevel = true
        · simp [hp, hd, hm, hl.1 hm]
        · have hn : ¬ (c.LogLevel = str "debug" ∨ c.LogLevel = str "info"
              ∨ c.LogLevel = str "warn" ∨ c.LogLevel = str "error") := fun hc => hm (hl.2 hc)
          simp only [if_neg hp, if_neg hd, hm, not_false_eq_true, if_true]
          simp [hp, hd, hn]
  · intro j r w
    simp only [Config.Validate]
    split
    · rfl
    · split
      · rfl
      · split <;> rfl
  · unfold Config.Validate
    split
    · rfl
    · split
      · rfl
      · split <;> rfl

/-- The cases of `TestConfig_Validate`. -/
theorem Validate_tests :
    ((⟨str "3000", str "./data.json", str "info", false, 10000000000, 10000000000⟩ :
      Config).Validate).1 = none ∧
    ((⟨str "", str "./data.json", str "info", false, 0, 0⟩ : Config).Validate).1
      = some (str "port cannot be empty") ∧
    ((⟨str "3000", str "", str "info", false, 0, 0⟩ : Config).Validate).1
      = some (str "data file path cannot be empty") ∧
    ((⟨str "3000", str "./data.json", str "invalid", false, 0, 0⟩ : Config).Validate).1
      = some (str "invalid log level: invalid (must be debug, info, warn, or error)") ∧
    ((⟨str "3000", str "./data.json", str "debug", false, 0, 0⟩ : Config).Validate).1 = none := by
  refine ⟨by decide, by decide, by decide, by decide, by decide⟩

/-! ## Theorems: index safety of `ValidateGUID` -/

/-- C15: `ValidateGUID` returns a boolean on every string and never panics: a
string whose length is not 36 is answered false before any byte is read, and
for a string of length 36 the reads at 8, 13, 18 and 23 are in range; without
the length check the reads would panic on a short string. -/
theorem ValidateGUID_index_safe (s : GoString) :
    (∃ b, ValidateGUID s = some b) ∧
    (s.length ≠ 36 → ValidateGUID s = some false) ∧
    (s.length = 36 → (∀ pos ∈ [8, 13, 18, 23], ∃ b, s[pos]? = some b) ∧
      ∃ b, dashLoop s [8, 13, 18, 23] = some b) ∧
    dashLoop (str "short") [8, 13, 18, 23] = none := by
  refine ⟨?_, ?_, ?_, by decide⟩
  · rcases ValidateGUID_cases s with ⟨_, hv⟩ | ⟨_, hv⟩
    · exact ⟨true, hv⟩
    · exact ⟨false, hv⟩
  · intro hl
    simp [ValidateGUID, hl]
  · intro hl
    obtain ⟨b8, b13, b18, b23, h8, h13, h18, h23, hd⟩ := dashLoop_of_length s hl
    refine ⟨?_, _, hd⟩
    intro pos hpos
    simp only [List.mem_cons, List.mem_singleton, List.not_mem_nil, or_false] at hpos
    rcases hpos with h | h | h | h <;> subst h
    · exact ⟨b8, h8⟩
    · exact ⟨b13, h13⟩
    · exact ⟨b18, h18⟩
    · exact ⟨b23, h23⟩

/-! ## Theorems: construction of the service -/

/-- C11: when the file cannot be read or does not decode, `NewService` returns
a nil service and a non-nil error; it returns a service only when `LoadData`
succeeded, with a nil error, and the snapshot of that service is the decoded
sequence. -/
theorem NewService_load (env : Env) (filePath : GoString) (h : Heap) :
    (((∃ e, env.ReadFile filePath = .error e) ∨
        (∃ file e, env.ReadFile filePath = .ok file ∧ (env.Unmarshal file).2 = some e)) →
      (NewService env filePath h).1 = none ∧ (NewService env filePath h).2.1 ≠ none) ∧
    (∀ s1, (NewService env filePath h).1 = some s1 →
      (NewService env filePath h).2.1 = none ∧
      Service.LoadData env ⟨none, filePath⟩ h = (none, s1, (NewService env filePath h).2.2) ∧
      s1.filePath = filePath ∧
      ∃ file, env.ReadFile filePath = .ok file ∧ (env.Unmarshal file).2 = none ∧
        s1.snapshot (NewService env filePath h).2.2 = (env.Unmarshal file).1 ∧
        s1.allData (NewService env filePath h).2.2 = (env.Unmarshal file).1) ∧
    ((NewService env filePath h).1 = none ↔ (NewService env filePath h).2.1 ≠ none) := by
  cases hr : env.ReadFile filePath with
  | error e =>
    have hl := LoadData_read_error env ⟨none, filePath⟩ h e hr
    simp [NewService, hl]
  | ok file =>
    cases hu : (env.Unmarshal file).2 with
    | some e =>
      have hl := LoadData_decode_error env ⟨none, filePath⟩ h file e hr hu
      simp [NewService, hl, hu]
    | none =>
      have hl := LoadData_ok env ⟨none, filePath⟩ h file hr hu
      have hsnap : (⟨some (h.alloc (env.Unmarshal file).1).1, filePath⟩ : Service).snapshot
          (h.alloc (env.Unmarshal file).1).2 = (env.Unmarshal file).1 :=
        elems_alloc_new h _
      have hall : (⟨some (h.alloc (env.Unmarshal file).1).1, filePath⟩ : Service).allData
          (h.alloc (env.Unmarshal file).1).2 = (env.Unmarshal file).1 := by
        rw [allData_eq, hsnap]
      have hN : NewService env filePath h =
          (some ⟨some (h.alloc (env.Unmarshal file).1).1, filePath⟩, none,
            (h.alloc (env.Unmarshal file).1).2) := by
        simp [NewService, hl]
      rw [hN]
      refine ⟨?_, ?_, by simp⟩
      · rintro (⟨e, he⟩ | ⟨f, e, hf, he⟩)
        · cases he
        · cases hf
          rw [hu] at he
          cases he
      · intro s1 hs1
        simp only [Option.some.injEq] at hs1
        subst hs1
        exact ⟨rfl, hl, rfl, file, rfl, hu, hsnap, hall⟩

/-- The case of `TestNewService_InvalidFile`: no service where no file can be
read. -/
theorem NewService_no_file :
    NewService noFileEnv (str "/nonexistent/file.json") [] =
      (none, some (str ("failed to load data: could not read data file: "
        ++ "no such file or directory")), []) := by
  decide

/-! ## Theorems: loading of the configuration -/

theorem godotenvLoad_keeps (dotenv : Option (List (GoString × GoString))) (e : ProcEnv)
    (k v : GoString) (hk : e k = some v) : godotenvLoad dotenv e k = some v := by
  cases dotenv with
  | none => exact hk
  | some envMap =>
    simp only [godotenvLoad]
    have gen : ∀ (cur : ProcEnv), cur k = some v →
        (envMap.foldl
          (fun cur kv => if (e kv.1).isSome then cur else Setenv cur kv.1 kv.2) cur) k
          = some v := by
      induction envMap with
      | nil => intro cur hc; exact hc
      | cons kv rest ih =>
        intro cur hc
        simp only [List.foldl_cons]
        apply ih
        by_cases hs : (e kv.1).isSome = true
        · simp [hs, hc]
        · have hne : k ≠ kv.1 := by
            intro heq
            rw [← heq, hk] at hs
            simp at hs
          simp [hs, Setenv, hne, hc]
    exact gen e hk

theorem Validate_snd (c : Config) : (c.Validate).2 = c := by
  unfold Config.Validate
  split
  · rfl
  · split
    · rfl
    · split <;> rfl

theorem Validate_ok (c : Config) (hp : c.Port ≠ str "") (hd : c.DataFilePath ≠ str "")
    (hl : c.LogLevel = str "debug" ∨ c.LogLevel = str "info" ∨ c.LogLevel = str "warn"
      ∨ c.LogLevel = str "error") : c.Validate = (none, c) := by
  have hm := (mapIndex_validLogLevels c.LogLevel).2 hl
  simp [Config.Validate, hp, hd, hm]

theorem getEnv_ne_empty (e : ProcEnv) (key d : GoString) (hd : d ≠ str "") :
    getEnv e key d ≠ str "" := by
  unfold getEnv
  split
  · assumption
  · exact hd

theorem getEnv_of_set (e : ProcEnv) (key d v : GoString) (hv : e key = some v)
    (hne : v ≠ str "") : getEnv e key d = v := by
  simp [getEnv, Getenv, hv, hne]

theorem getEnv_of_empty (e : ProcEnv) (key d : GoString) (hv : Getenv e key = str "") :
    getEnv e key d = d := by
  simp [getEnv, hv]

theorem Load_of_valid (pd : GoString → Option Int)
    (dotenv : Option (List (GoString × GoString))) (e : ProcEnv) (p l : GoString)
    (hp : getEnv (godotenvLoad dotenv e) (str "PORT") (str "3000") = p) (hpne : p ≠ str "")
    (hl : getEnv (godotenvLoad dotenv e) (str "LOG_LEVEL") (str "info") = l)
    (hlv : l = str "debug" ∨ l = str "info" ∨ l = str "warn" ∨ l = str "error") :
    ∃ cfg, (Load pd dotenv e).1 = some cfg ∧ (Load pd dotenv e).2.1 = none ∧
      cfg.Port = p ∧ cfg.LogLevel = l := by
  have hv := Validate_ok
    ⟨getEnv (godotenvLoad dotenv e) (str "PORT") (str "3000"),
      getEnv (godotenvLoad dotenv e) (str "DATA_FILE_PATH") (str "./data.json"),
      getEnv (godotenvLoad dotenv e) (str "LOG_LEVEL") (str "info"),
      getEnvBool (godotenvLoad dotenv e) (str "JSON_LOG") false,
      getEnvDuration pd (godotenvLoad dotenv e) (str "READ_TIMEOUT") (10 * Second),
      getEnvDuration pd (godotenvLoad dotenv e) (str "WRITE_TIMEOUT") (10 * Second)⟩
    (by rw [hp]; exact hpne) (getEnv_ne_empty _ _ _ (by decide)) (by rw [hl]; exact hlv)
  refine ⟨⟨getEnv (godotenvLoad dotenv e) (str "PORT") (str "3000"),
      getEnv (godotenvLoad dotenv e) (str "DATA_FILE_PATH") (str "./data.json"),
      getEnv (godotenvLoad dotenv e) (str "LOG_LEVEL") (str "info"),
      getEnvBool (godotenvLoad dotenv e) (str "JSON_LOG") false,
      getEnvDuration pd (godotenvLoad dotenv e) (str "READ_TIMEOUT") (10 * Second),
      getEnvDuration pd (godotenvLoad dotenv e) (str "WRITE_TIMEOUT") (10 * Second)⟩,
    ?_, ?_, hp, hl⟩
  · simp only [Load, hv]
  · simp only [Load, hv]


/-- C12, counterexample: with `PORT` and `LOG_LEVEL` unset in the environment
and a file `.env` that holds `PORT=8080`, `Load` succeeds with port 8080, not
with the built-in 3000. -/
theorem Load_dotenv_sets_port :
    emptyEnv (str "PORT") = none ∧ emptyEnv (str "LOG_LEVEL") = none ∧
    (Load (fun _ => none) portDotenv emptyEnv).1 =
      some ⟨str "8080", str "./data.json", str "info", false, 10000000000, 10000000000⟩ ∧
    (Load (fun _ => none) portDotenv emptyEnv).2.1 = none := by
  refine ⟨rfl, rfl, by decide, by decide⟩

/-- C12, amended: `Load` first lets `godotenv.Load` add the variables of the
file `.env` that the environment lacks, then takes each setting from its
variable when that is set and non-empty and from the built-in default
otherwise. With `PORT` and `LOG_LEVEL` unset or empty after that step (so when
they are unset and there is no `.env`), it succeeds with port 3000 and level
info; with `PORT = p` non-empty and `LOG_LEVEL = l` one of the four levels in
the environment, it succeeds with port `p` and level `l`, whatever `.env`. -/
theorem Load_env_or_default (pd : GoString → Option Int)
    (dotenv : Option (List (GoString × GoString))) (e : ProcEnv) :
    (Load pd dotenv e).2.2 = godotenvLoad dotenv e ∧
    godotenvLoad none e = e ∧
    (∀ cfg, (Load pd dotenv e).1 = some cfg →
      cfg.Port = getEnv (godotenvLoad dotenv e) (str "PORT") (str "3000") ∧
      cfg.DataFilePath
        = getEnv (godotenvLoad dotenv e) (str "DATA_FILE_PATH") (str "./data.json") ∧
      cfg.LogLevel = getEnv (godotenvLoad dotenv e) (str "LOG_LEVEL") (str "info")) ∧
    (Getenv (godotenvLoad dotenv e) (str "PORT") = str "" →
      Getenv (godotenvLoad dotenv e) (str "LOG_LEVEL") = str "" →
      ∃ cfg, (Load pd dotenv e).1 = some cfg ∧ (Load pd dotenv e).2.1 = none ∧
        cfg.Port = str "3000" ∧ cfg.LogLevel = str "info") ∧
    (dotenv = none → e (str "PORT") = none → e (str "LOG_LEVEL") = none →
      ∃ cfg, (Load pd dotenv e).1 = some cfg ∧ (Load pd dotenv e).2.1 = none ∧
        cfg.Port = str "3000" ∧ cfg.LogLevel = str "info") ∧
    (∀ p l, e (str "PORT") = some p → p ≠ str "" → e (str "LOG_LEVEL") = some l →
      (l = str "debug" ∨ l = str "info" ∨ l = str "warn" ∨ l = str "error") →
      ∃ cfg, (Load pd dotenv e).1 = some cfg ∧ (Load pd dotenv e).2.1 = none ∧
        cfg.Port = p ∧ cfg.LogLevel = l) := by
  have hdef : ∀ (d : Option (List (GoString × GoString))),
      Getenv (godotenvLoad d e) (str "PORT") = str "" →
      Getenv (godotenvLoad d e) (str "LOG_LEVEL") = str "" →
      ∃ cfg, (Load pd d e).1 = some cfg ∧ (Load pd d e).2.1 = none ∧
        cfg.Port = str "3000" ∧ cfg.LogLevel = str "info" := by
    intro d hp hl
    exact Load_of_valid pd d e _ _ (getEnv_of_empty _ _ _ hp) (by decide)
      (getEnv_of_empty _ _ _ hl) (Or.inr (Or.inl rfl))
  refine ⟨?_, rfl, ?_, hdef dotenv, ?_, ?_⟩
  · simp only [Load]
    split <;> rfl
  · intro cfg hcfg
    simp only [Load] at hcfg
    split at hcfg
    · cases hcfg
    · simp only [Option.some.injEq] at hcfg
      rw [← hcfg, Validate_snd]
      exact ⟨rfl, rfl, rfl⟩
  · intro hd hp hl
    subst hd
    exact hdef none (by simp [godotenvLoad, Getenv, hp]; rfl) (by simp [godotenvLoad, Getenv, hl]; rfl)
  · intro p l hp hpne hl hlv
    exact Load_of_valid pd dotenv e p l
      (getEnv_of_set _ _ _ _ (godotenvLoad_keeps dotenv e _ _ hp) hpne) hpne
      (getEnv_of_set _ _ _ _ (godotenvLoad_keeps dotenv e _ _ hl)
        (by rcases hlv with h | h | h | h <;> rw [h] <;> decide))
      hlv

/-! ## Theorems: the lock during a reload -/

/-- C14, counterexample: a reload of `testService` takes the lock as its first
action and holds it while the file is read and decoded; the lock is released
only after the assignment. -/
theorem LoadData_locks_before_reading :
    (LoadPC.run okEnv 5 .start ⟨testService, testHeap, ⟨false, 0⟩⟩).1 =
      [(.Lock, true), (.ReadFile, true), (.Unmarshal, true), (.Assign, true),
        (.Unlock, false)] := by
  decide

/-- C14, amended: a call of `LoadData` that finds the lock free takes it
first and holds it across the file read, the decoding and the assignment; the
deferred unlock is its last action on every path, and the call leaves the
error, the service and the heap that `Service.LoadData` describes. -/
theorem LoadData_holds_lock (env : Env) (sh : Shared) (hfree : sh.mu = ⟨false, 0⟩) :
    ((LoadPC.run env 5 .start sh).1 = [(.Lock, true), (.ReadFile, true), (.Unlock, false)] ∨
      (LoadPC.run env 5 .start sh).1 =
        [(.Lock, true), (.ReadFile, true), (.Unmarshal, true), (.Unlock, false)] ∨
      (LoadPC.run env 5 .start sh).1 =
        [(.Lock, true), (.ReadFile, true), (.Unmarshal, true), (.Assign, true),
          (.Unlock, false)]) ∧
    (LoadPC.run env 5 .start sh).2 =
      (.returned (sh.svc.LoadData env sh.heap).1,
        ⟨(sh.svc.LoadData env sh.heap).2.1, (sh.svc.LoadData env sh.heap).2.2, ⟨false, 0⟩⟩) := by
  cases hr : env.ReadFile sh.svc.filePath with
  | error e =>
    rw [LoadData_read_error env sh.svc sh.heap e hr]
    simp [LoadPC.run, LoadPC.step, RWMutex.Lock, RWMutex.Unlock, hfree, hr]
  | ok file =>
    cases hu : (env.Unmarshal file).2 with
    | some e =>
      rw [LoadData_decode_error env sh.svc sh.heap file e hr hu]
      simp [LoadPC.run, LoadPC.step, RWMutex.Lock, RWMutex.Unlock, hfree, hr, hu]
    | none =>
      rw [LoadData_ok env sh.svc sh.heap file hr hu]
      simp [LoadPC.run, LoadPC.step, RWMutex.Lock, RWMutex.Unlock, hfree, hr, hu]

/-- Witness of the amended C14: the reload of `testService` where no file can
be read. -/
theorem LoadData_holds_lock_witness :
    (LoadPC.run noFileEnv 5 .start ⟨testService, testHeap, ⟨false, 0⟩⟩).2 =
      (.returned (testService.LoadData noFileEnv testHeap).1,
        ⟨(testService.LoadData noFileEnv testHeap).2.1,
          (testService.LoadData noFileEnv testHeap).2.2, ⟨false, 0⟩⟩) :=
  (LoadData_holds_lock noFileEnv ⟨testService, testHeap, ⟨false, 0⟩⟩ rfl).2

/-- A call of `GetAllData` run on its own: from a free lock its four statements
leave the slice and the heap that `Service.GetAllData` describes, and the lock
free again. -/
theorem GetAllData_steps (sh : Shared) (hfree : sh.mu = ⟨false, 0⟩) :
    ∃ sh1 sh2 sh3,
      ReadPC.step .start sh = some (.RLock, .locked, sh1) ∧
      ReadPC.step .locked sh1 = some (.Make, .made (sh.svc.GetAllData sh.heap).1, sh2) ∧
      ReadPC.step (.made (sh.svc.GetAllData sh.heap).1) sh2 =
        some (.Copy, .copied (sh.svc.GetAllData sh.heap).1, sh3) ∧
      ReadPC.step (.copied (sh.svc.GetAllData sh.heap).1) sh3 =
        some (.RUnlock, .returned (sh.svc.GetAllData sh.heap).1,
          ⟨sh.svc, (sh.svc.GetAllData sh.heap).2, ⟨false, 0⟩⟩) := by
  refine ⟨⟨sh.svc, sh.heap, ⟨false, 1⟩⟩,
    ⟨sh.svc, (make sh.heap (sh.heap.len sh.svc.data)).2, ⟨false, 1⟩⟩,
    ⟨sh.svc, (sh.svc.GetAllData sh.heap).2, ⟨false, 1⟩⟩, ?_, ?_, ?_, ?_⟩
  · simp [ReadPC.step, RWMutex.RLock, hfree]
  · simp [ReadPC.step, Service.GetAllData]
  · simp [ReadPC.step, Service.GetAllData]
  · simp [ReadPC.step, RWMutex.RUnlock]

/-! ## Theorems: concurrent reads during a reload -/

theorem elems_append_lt (h : Heap) (xs : List Data) (a : Nat) (ha : a < h.length) :
    Heap.elems (h ++ [xs]) (some a) = h.elems (some a) :=
  elems_alloc h xs (some a) ha

theorem elems_append_new (h : Heap) (xs : List Data) :
    Heap.elems (h ++ [xs]) (some h.length) = xs :=
  elems_alloc_new h xs

theorem elems_set_ne (h : Heap) (xs : List Data) (a : Nat) (sl : Slice) (hne : sl ≠ some a) :
    Heap.elems (h.set a xs) sl = h.elems sl := by
  cases sl with
  | none => rfl
  | some b =>
    have hne1 : a ≠ b := fun e => hne (by rw [e])
    simp [Heap.elems, List.getD_eq_getElem?_getD, List.getElem?_set_ne hne1]

theorem elems_set_eq (h : Heap) (xs : List Data) (a : Nat) (ha : a < h.length) :
    Heap.elems (h.set a xs) (some a) = xs := by
  simp [Heap.elems, List.getD_eq_getElem?_getD, List.getElem?_set_self ha]

theorem countP_set {α : Type} (p : α → Bool) (rs : List α) : ∀ (i : Nat) (x y : α),
    rs[i]? = some x →
    (rs.set i y).countP p + (if p x = true then 1 else 0)
      = rs.countP p + (if p y = true then 1 else 0) := by
  induction rs with
  | nil => intro i x y hi; simp at hi
  | cons r rest ih =>
    intro i x y hi
    cases i with
    | zero =>
      simp at hi
      subst hi
      simp only [List.set_cons_zero, List.countP_cons]
      omega
    | succ i =>
      have hi1 : rest[i]? = some x := by simpa using hi
      have := ih i x y hi1
      simp only [List.set_cons_succ, List.countP_cons]
      omega

theorem ReadPC.readOk_frame (A B : List Data) (sh sh1 : Shared) (wpc wpc1 : LoadPC) (pc : ReadPC)
    (hok : pc.ok A B sh wpc)
    (hlen : sh.heap.length ≤ sh1.heap.length)
    (helems : ∀ a, pc.result = some (some a) →
      sh1.heap.elems (some a) = sh.heap.elems (some a))
    (hdata : ∀ a, pc.result = some (some a) → sh.svc.data ≠ some a → wpc ≠ .decoded a →
      sh1.svc.data ≠ some a ∧ wpc1 ≠ .decoded a)
    (hsnap : pc.holds = true → sh1.svc.snapshot sh1.heap = sh.svc.snapshot sh.heap) :
    pc.ok A B sh1 wpc1 := by
  cases pc with
  | start => trivial
  | locked => trivial
  | made res =>
    obtain ⟨a, hres, ha, hd, hw, hl⟩ := hok
    subst hres
    have h1 := hdata a rfl hd hw
    refine ⟨a, rfl, by omega, h1.1, h1.2, ?_⟩
    rw [helems a rfl, hsnap rfl]
    exact hl
  | copied res =>
    obtain ⟨a, hres, ha, hd, hw, hl⟩ := hok
    subst hres
    have h1 := hdata a rfl hd hw
    refine ⟨a, rfl, by omega, h1.1, h1.2, ?_⟩
    rw [helems a rfl]
    exact hl
  | returned res =>
    obtain ⟨a, hres, ha, hd, hw, hl⟩ := hok
    subst hres
    have h1 := hdata a rfl hd hw
    refine ⟨a, rfl, by omega, h1.1, h1.2, ?_⟩
    rw [helems a rfl]
    exact hl

theorem ReadPC.ok_lt (A B : List Data) (sh : Shared) (wpc : LoadPC) (pc : ReadPC)
    (hok : pc.ok A B sh wpc) (a : Nat) (hres : pc.result = some (some a)) :
    a < sh.heap.length ∧ sh.svc.data ≠ some a ∧ wpc ≠ .decoded a := by
  cases pc with
  | start => cases hres
  | locked => cases hres
  | made res =>
    obtain ⟨b, hb, h1, h2, h3, _⟩ := hok
    simp only [ReadPC.result, Option.some.injEq] at hres
    rw [hres] at hb
    cases hb
    exact ⟨h1, h2, h3⟩
  | copied res =>
    obtain ⟨b, hb, h1, h2, h3, _⟩ := hok
    simp only [ReadPC.result, Option.some.injEq] at hres
    rw [hres] at hb
    cases hb
    exact ⟨h1, h2, h3⟩
  | returned res =>
    obtain ⟨b, hb, h1, h2, h3, _⟩ := hok
    simp only [ReadPC.result, Option.some.injEq] at hres
    rw [hres] at hb
    cases hb
    exact ⟨h1, h2, h3⟩

theorem Inv.no_reader_holds {env : Env} {fp : GoString} {A B : List Data} {st : System}
    (hinv : Inv env fp A B st) (hw : st.writer.holds = true) (i : Nat) (pc : ReadPC)
    (hi : st.readers[i]? = some pc) : pc.holds = false := by
  have h1 : st.shared.mu.writer = true := by rw [hinv.writerFlag, hw]
  have h2 := hinv.exclusive h1
  rw [hinv.readerCount] at h2
  have h3 := List.countP_eq_zero.1 h2 pc (List.getElem?_mem hi)
  simpa using h3

theorem Inv.writer_step {env : Env} {fp : GoString} {A B : List Data}
    (hB : ∀ file, env.ReadFile fp = .ok file → (env.Unmarshal file).2 = none →
      B = (env.Unmarshal file).1)
    {st : System} (hinv : Inv env fp A B st) (act : Action) (pc1 : LoadPC) (sh1 : Shared)
    (hstep : st.writer.step env st.shared = some (act, pc1, sh1)) :
    Inv env fp A B ⟨sh1, pc1, st.readers⟩ := by
  obtain ⟨⟨svc, heap, mu⟩, wpc, rs⟩ := st
  simp only at hstep
  cases wpc with
  | start =>
    simp only [LoadPC.step, RWMutex.Lock] at hstep
    split at hstep
    · cases hstep
    · rename_i mu1 hmu
      simp only [Option.some.injEq, Prod.mk.injEq] at hstep
      obtain ⟨_, hpc, hsh⟩ := hstep
      subst hpc hsh
      split at hmu
      · rename_i hfree
        simp only [Option.some.injEq] at hmu
        subst hmu
        have hcount := hinv.readerCount
        simp only at hcount hfree
        exact {
          path := hinv.path
          writerFlag := rfl
          readerCount := by simp only; rw [← hcount, hfree.2]
          exclusive := fun _ => rfl
          allocated := hinv.allocated
          snapshot := hinv.snapshot
          writerOk := trivial
          readersOk := fun i pc hi =>
            ReadPC.readOk_frame A B _ _ _ _ pc (hinv.readersOk i pc hi) (Nat.le_refl _)
              (fun _ _ => rfl) (fun a _ hd _ => ⟨hd, by simp⟩) (fun _ => rfl)
          distinct := hinv.distinct }
      · cases hmu
  | locked =>
    have hpath : svc.filePath = fp := hinv.path
    simp only [LoadPC.step] at hstep
    split at hstep
    · simp only [Option.some.injEq, Prod.mk.injEq] at hstep
      obtain ⟨_, hpc, hsh⟩ := hstep
      subst hpc hsh
      exact {
        path := hinv.path
        writerFlag := hinv.writerFlag
        readerCount := hinv.readerCount
        exclusive := hinv.exclusive
        allocated := hinv.allocated
        snapshot := hinv.snapshot
        writerOk := trivial
        readersOk := fun i pc hi =>
          ReadPC.readOk_frame A B _ _ _ _ pc (hinv.readersOk i pc hi) (Nat.le_refl _)
            (fun _ _ => rfl) (fun a _ hd _ => ⟨hd, by simp⟩) (fun _ => rfl)
        distinct := hinv.distinct }
    · rename_i file hr
      simp only [Option.some.injEq, Prod.mk.injEq] at hstep
      obtain ⟨_, hpc, hsh⟩ := hstep
      subst hpc hsh
      exact {
        path := hinv.path
        writerFlag := hinv.writerFlag
        readerCount := hinv.readerCount
        exclusive := hinv.exclusive
        allocated := hinv.allocated
        snapshot := hinv.snapshot
        writerOk := by
          show env.ReadFile fp = .ok file
          rw [← hpath]; exact hr
        readersOk := fun i pc hi =>
          ReadPC.readOk_frame A B _ _ _ _ pc (hinv.readersOk i pc hi) (Nat.le_refl _)
            (fun _ _ => rfl) (fun a _ hd _ => ⟨hd, by simp⟩) (fun _ => rfl)
        distinct := hinv.distinct }
  | read file =>
    have hfile : env.ReadFile fp = .ok file := hinv.writerOk
    have halloc : heap.allocated svc.data := hinv.allocated
    have hsnap1 : Service.snapshot svc (heap ++ [(env.Unmarshal file).1])
        = Service.snapshot svc heap := elems_alloc heap _ svc.data halloc
    have hreaders : ∀ (w : LoadPC), (∀ a, a < heap.length → w ≠ .decoded a) →
        ∀ (i : Nat) (pc : ReadPC), rs[i]? = some pc →
          pc.ok A B ⟨svc, heap ++ [(env.Unmarshal file).1], mu⟩ w := by
      intro w hw i pc hi
      have hok := hinv.readersOk i pc hi
      refine ReadPC.readOk_frame A B _ _ _ _ pc hok (by simp) ?_ ?_ (fun _ => hsnap1)
      · intro a ha
        exact elems_append_lt heap _ a (ReadPC.ok_lt A B _ _ pc hok a ha).1
      · intro a ha hd _
        exact ⟨hd, hw a (ReadPC.ok_lt A B _ _ pc hok a ha).1⟩
    simp only [LoadPC.step, Heap.alloc] at hstep
    split at hstep
    · simp only [Option.some.injEq, Prod.mk.injEq] at hstep
      obtain ⟨_, hpc, hsh⟩ := hstep
      subst hpc hsh
      exact {
        path := hinv.path
        writerFlag := hinv.writerFlag
        readerCount := hinv.readerCount
        exclusive := hinv.exclusive
        allocated := by
          cases hd : svc.data with
          | none => trivial
          | some a =>
            have : a < heap.length := by simpa [Heap.allocated, hd] using halloc
            show a < (heap ++ [(env.Unmarshal file).1]).length
            simp; omega
        snapshot := by simp only; rw [hsnap1]; exact hinv.snapshot
        writerOk := trivial
        readersOk := hreaders _ (fun a _ => by simp)
        distinct := hinv.distinct }
    · rename_i hu
      simp only [Option.some.injEq, Prod.mk.injEq] at hstep
      obtain ⟨_, hpc, hsh⟩ := hstep
      subst hpc hsh
      exact {
        path := hinv.path
        writerFlag := hinv.writerFlag
        readerCount := hinv.readerCount
        exclusive := hinv.exclusive
        allocated := by
          cases hd : svc.data with
          | none => trivial
          | some a =>
            have : a < heap.length := by simpa [Heap.allocated, hd] using halloc
            show a < (heap ++ [(env.Unmarshal file).1]).length
            simp; omega
        snapshot := by simp only; rw [hsnap1]; exact hinv.snapshot
        writerOk := by
          refine ⟨by simp, ?_⟩
          show Heap.elems (heap ++ [(env.Unmarshal file).1]) (some heap.length) = B
          rw [elems_append_new, hB file hfile hu]
        readersOk := hreaders _ (fun a ha hc => by
          simp only [LoadPC.decoded.injEq] at hc
          omega)
        distinct := hinv.distinct }
  | decoded d =>
    have hd : d < heap.length ∧ heap.elems (some d) = B := hinv.writerOk
    simp only [LoadPC.step, Option.some.injEq, Prod.mk.injEq] at hstep
    obtain ⟨_, hpc, hsh⟩ := hstep
    subst hpc hsh
    exact {
      path := hinv.path
      writerFlag := hinv.writerFlag
      readerCount := hinv.readerCount
      exclusive := hinv.exclusive
      allocated := hd.1
      snapshot := Or.inr hd.2
      writerOk := trivial
      readersOk := fun i pc hi => by
        have hok := hinv.readersOk i pc hi
        have hnh := hinv.no_reader_holds rfl i pc hi
        refine ReadPC.readOk_frame A B _ _ _ _ pc hok (Nat.le_refl _) (fun _ _ => rfl) ?_ ?_
        · intro a _ _ hw
          refine ⟨?_, by simp⟩
          intro hc
          simp only [Option.some.injEq] at hc
          exact hw (by rw [hc])
        · intro hh
          rw [hnh] at hh
          cases hh
      distinct := hinv.distinct }
  | failing err =>
    simp only [LoadPC.step, Option.some.injEq, Prod.mk.injEq] at hstep
    obtain ⟨_, hpc, hsh⟩ := hstep
    subst hpc hsh
    have hex := hinv.exclusive (by rw [hinv.writerFlag]; rfl)
    exact {
      path := hinv.path
      writerFlag := rfl
      readerCount := hinv.readerCount
      exclusive := fun hc => by simp [RWMutex.Unlock] at hc
      allocated := hinv.allocated
      snapshot := hinv.snapshot
      writerOk := trivial
      readersOk := fun i pc hi =>
        ReadPC.readOk_frame A B _ _ _ _ pc (hinv.readersOk i pc hi) (Nat.le_refl _)
          (fun _ _ => rfl) (fun a _ hd _ => ⟨hd, by simp⟩) (fun _ => rfl)
      distinct := hinv.distinct }
  | assigned =>
    simp only [LoadPC.step, Option.some.injEq, Prod.mk.injEq] at hstep
    obtain ⟨_, hpc, hsh⟩ := hstep
    subst hpc hsh
    exact {
      path := hinv.path
      writerFlag := rfl
      readerCount := hinv.readerCount
      exclusive := fun hc => by simp [RWMutex.Unlock] at hc
      allocated := hinv.allocated
      snapshot := hinv.snapshot
      writerOk := trivial
      readersOk := fun i pc hi =>
        ReadPC.readOk_frame A B _ _ _ _ pc (hinv.readersOk i pc hi) (Nat.le_refl _)
          (fun _ _ => rfl) (fun a _ hd _ => ⟨hd, by simp⟩) (fun _ => rfl)
      distinct := hinv.distinct }
  | returned err =>
    simp [LoadPC.step] at hstep


theorem Inv.set_readersOk {A B : List Data} {rs : List ReadPC} {sh1 : Shared} {w : LoadPC}
    (i : Nat) (pc1 : ReadPC) (hnew : pc1.ok A B sh1 w)
    (hold : ∀ (j : Nat) (pc : ReadPC), j ≠ i → rs[j]? = some pc → pc.ok A B sh1 w) :
    ∀ (j : Nat) (pc : ReadPC), (rs.set i pc1)[j]? = some pc → pc.ok A B sh1 w := by
  intro j pc hj
  rw [List.getElem?_set] at hj
  by_cases hij : i = j
  · rw [if_pos hij] at hj
    split at hj
    · cases hj; exact hnew
    · cases hj
  · rw [if_neg hij] at hj
    exact hold j pc (fun e => hij e.symm) hj

theorem Inv.set_distinct {rs : List ReadPC} (i : Nat) (pc pc1 : ReadPC)
    (hi : rs[i]? = some pc)
    (hold : ∀ (i j : Nat) (pi pj : ReadPC) (a : Nat), i ≠ j →
      rs[i]? = some pi → rs[j]? = some pj →
      pi.result = some (some a) → pj.result ≠ some (some a))
    (hnew : ∀ a, pc1.result = some (some a) → pc.result ≠ some (some a) →
      ∀ (j : Nat) (pj : ReadPC), j ≠ i → rs[j]? = some pj → pj.result ≠ some (some a)) :
    ∀ (k j : Nat) (pk pj : ReadPC) (a : Nat), k ≠ j →
      (rs.set i pc1)[k]? = some pk → (rs.set i pc1)[j]? = some pj →
      pk.result = some (some a) → pj.result ≠ some (some a) := by
  have hnew1 : ∀ a, pc1.result = some (some a) →
      ∀ (j : Nat) (pj : ReadPC), j ≠ i → rs[j]? = some pj → pj.result ≠ some (some a) := by
    intro a ha j pj hji hj
    by_cases hpc : pc.result = some (some a)
    · intro hc
      exact hold i j pc pj a (fun e => hji e.symm) hi hj hpc hc
    · exact hnew a ha hpc j pj hji hj
  intro k j pk pj a hkj hk hj hres
  rw [List.getElem?_set] at hk hj
  by_cases hik : i = k
  · have hij : ¬ i = j := fun e => hkj (hik.symm.trans e)
    rw [if_pos hik] at hk
    rw [if_neg hij] at hj
    split at hk
    · cases hk
      exact hnew1 a hres j pj (fun e => hij e.symm) hj
    · cases hk
  · rw [if_neg hik] at hk
    by_cases hij : i = j
    · rw [if_pos hij] at hj
      split at hj
      · cases hj
        intro hc
        exact hnew1 a hc k pk (fun e => hik e.symm) hk hres
      · cases hj
    · rw [if_neg hij] at hj
      exact hold k j pk pj a hkj hk hj hres

theorem LoadPC.loadOk_frame (env : Env) (fp : GoString) (B : List Data) (h h1 : Heap) (w : LoadPC)
    (hok : w.ok env fp B h) (hlen : h.length ≤ h1.length)
    (helems : ∀ d, w = .decoded d → h1.elems (some d) = h.elems (some d)) :
    w.ok env fp B h1 := by
  cases w with
  | decoded d =>
    obtain ⟨h2, h3⟩ := hok
    exact ⟨by omega, by rw [helems d rfl]; exact h3⟩
  | read file => exact hok
  | start => trivial
  | locked => trivial
  | failing err => trivial
  | assigned => trivial
  | returned err => trivial

theorem allocated_mono (h h1 : Heap) (sl : Slice) (hs : h.allocated sl)
    (hlen : h.length ≤ h1.length) : h1.allocated sl := by
  cases sl with
  | none => trivial
  | some a =>
    have : a < h.length := hs
    show a < h1.length
    omega

theorem Inv.reader_step {env : Env} {fp : GoString} {A B : List Data}
    {st : System} (hinv : Inv env fp A B st) (i : Nat) (pc : ReadPC)
    (hi : st.readers[i]? = some pc) (act : Action) (pc1 : ReadPC) (sh1 : Shared)
    (hstep : pc.step st.shared = some (act, pc1, sh1)) :
    Inv env fp A B ⟨sh1, st.writer, st.readers.set i pc1⟩ := by
  obtain ⟨⟨svc, heap, mu⟩, wpc, rs⟩ := st
  simp only at hstep hi
  have hcnt := countP_set ReadPC.holds rs i pc pc1 hi
  have hrc : mu.readers = rs.countP ReadPC.holds := hinv.readerCount
  have hwok : wpc.ok env fp B heap := hinv.writerOk
  have halloc : heap.allocated svc.data := hinv.allocated
  cases pc with
  | start =>
    simp only [ReadPC.step, RWMutex.RLock] at hstep
    split at hstep
    · cases hstep
    · rename_i mu1 hmu
      simp only [Option.some.injEq, Prod.mk.injEq] at hstep
      obtain ⟨_, hpc, hsh⟩ := hstep
      subst hpc hsh
      split at hmu
      · rename_i hfree
        simp only [Option.some.injEq] at hmu
        subst hmu
        have hwf : mu.writer = wpc.holds := hinv.writerFlag
        exact {
          path := hinv.path
          writerFlag := by simp only; rw [← hwf, hfree]
          readerCount := by
            simp only [ReadPC.holds] at hcnt ⊢
            simp at hcnt
            omega
          exclusive := fun hc => by simp at hc
          allocated := hinv.allocated
          snapshot := hinv.snapshot
          writerOk := hinv.writerOk
          readersOk := Inv.set_readersOk i _ trivial (fun j pj _ hj =>
            ReadPC.readOk_frame A B _ _ _ _ pj (hinv.readersOk j pj hj) (Nat.le_refl _)
              (fun _ _ => rfl) (fun a _ hd hw => ⟨hd, hw⟩) (fun _ => rfl))
          distinct := Inv.set_distinct i _ _ hi hinv.distinct (fun a ha => by cases ha) }
      · cases hmu
  | locked =>
    simp only [ReadPC.step, make, Heap.alloc, Option.some.injEq, Prod.mk.injEq] at hstep
    obtain ⟨_, hpc, hsh⟩ := hstep
    subst hpc hsh
    have hsnap1 : Service.snapshot svc (heap ++ [List.replicate (heap.len svc.data) Data.zero])
        = Service.snapshot svc heap := elems_alloc heap _ svc.data halloc
    have hlen1 : heap.length
        ≤ (heap ++ [List.replicate (heap.len svc.data) Data.zero]).length := by simp
    exact {
      path := hinv.path
      writerFlag := hinv.writerFlag
      readerCount := by
        simp only [ReadPC.holds] at hcnt ⊢
        omega
      exclusive := hinv.exclusive
      allocated := allocated_mono _ _ _ halloc hlen1
      snapshot := by simp only; rw [hsnap1]; exact hinv.snapshot
      writerOk := LoadPC.loadOk_frame env fp B _ _ _ hwok hlen1 (fun d hd => by
        subst hd
        exact elems_append_lt heap _ d hwok.1)
      readersOk := Inv.set_readersOk i _
        ⟨heap.length, rfl, by simp, allocated_ne_length heap svc.data halloc,
          (fun hc => by
            subst hc
            exact absurd hwok.1 (Nat.lt_irrefl _)),
          by
            show (Heap.elems (heap ++ [List.replicate (heap.len svc.data) Data.zero])
              (some heap.length)).length = _
            rw [elems_append_new, hsnap1]
            simp [Heap.len, Service.snapshot]⟩
        (fun j pj _ hj => by
          have hok := hinv.readersOk j pj hj
          exact ReadPC.readOk_frame A B _ _ _ _ pj hok hlen1
            (fun a ha => elems_append_lt heap _ a (ReadPC.ok_lt A B _ _ pj hok a ha).1)
            (fun a _ hd hw => ⟨hd, hw⟩) (fun _ => hsnap1))
      distinct := Inv.set_distinct i _ _ hi hinv.distinct (fun a ha _ j pj _ hj hc => by
        simp only [ReadPC.result, Option.some.injEq] at ha
        subst ha
        exact absurd (ReadPC.ok_lt A B _ _ pj (hinv.readersOk j pj hj) _ hc).1
          (Nat.lt_irrefl _)) }
  | made res =>
    obtain ⟨a, hres, ha, hda, hwa, hla⟩ := hinv.readersOk i _ hi
    subst hres
    simp only at ha hda hwa hla
    have hcontent : (heap.elems svc.data).take
          (min (heap.len (some a)) (heap.len svc.data))
        ++ (heap.elems (some a)).drop (min (heap.len (some a)) (heap.len svc.data))
        = Service.snapshot svc heap := by
      have : heap.len (some a) = heap.len svc.data := hla
      rw [this, Nat.min_self]
      have hle : (heap.elems (some a)).length ≤ (heap.elems svc.data).length :=
        Nat.le_of_eq hla
      simp [Heap.len, Service.snapshot, hle]
    simp only [ReadPC.step, copy, Option.some.injEq, Prod.mk.injEq] at hstep
    obtain ⟨_, hpc, hsh⟩ := hstep
    subst hpc hsh
    rw [hcontent]
    have hsnap1 : Service.snapshot svc (heap.set a (Service.snapshot svc heap))
        = Service.snapshot svc heap := elems_set_ne heap _ a svc.data hda
    have hlen1 : heap.length ≤ (heap.set a (Service.snapshot svc heap)).length := by simp
    exact {
      path := hinv.path
      writerFlag := hinv.writerFlag
      readerCount := by
        simp only [ReadPC.holds] at hcnt ⊢
        omega
      exclusive := hinv.exclusive
      allocated := allocated_mono _ _ _ halloc hlen1
      snapshot := by simp only; rw [hsnap1]; exact hinv.snapshot
      writerOk := LoadPC.loadOk_frame env fp B _ _ _ hwok hlen1 (fun d hd => by
        subst hd
        exact elems_set_ne heap _ a (some d) (fun hc => by
          simp only [Option.some.injEq] at hc
          exact hwa (by rw [hc])))
      readersOk := Inv.set_readersOk i _
        ⟨a, rfl, by simpa using ha, hda, hwa, by
          show Heap.elems (heap.set a (Service.snapshot svc heap)) (some a) = A ∨
            Heap.elems (heap.set a (Service.snapshot svc heap)) (some a) = B
          rw [elems_set_eq heap _ a ha]
          exact hinv.snapshot⟩
        (fun j pj hji hj => by
          have hok := hinv.readersOk j pj hj
          exact ReadPC.readOk_frame A B _ _ _ _ pj hok hlen1
            (fun b hb => elems_set_ne heap _ a (some b) (fun hc => by
              simp only [Option.some.injEq] at hc
              subst hc
              exact hinv.distinct j i pj _ b hji hj hi hb rfl))
            (fun b _ hd hw => ⟨hd, hw⟩) (fun _ => hsnap1))
      distinct := Inv.set_distinct i _ _ hi hinv.distinct (fun b hb hnb => by
        exact absurd hb hnb) }
  | copied res =>
    obtain ⟨a, hres, ha, hda, hwa, hla⟩ := hinv.readersOk i _ hi
    subst hres
    simp only [ReadPC.step, Option.some.injEq, Prod.mk.injEq] at hstep
    obtain ⟨_, hpc, hsh⟩ := hstep
    subst hpc hsh
    exact {
      path := hinv.path
      writerFlag := hinv.writerFlag
      readerCount := by
        simp only [ReadPC.holds, RWMutex.RUnlock] at hcnt ⊢
        simp at hcnt
        omega
      exclusive := fun hc => by
        have := hinv.exclusive hc
        simp only [RWMutex.RUnlock] at this ⊢
        omega
      allocated := hinv.allocated
      snapshot := hinv.snapshot
      writerOk := hinv.writerOk
      readersOk := Inv.set_readersOk i _ ⟨a, rfl, ha, hda, hwa, hla⟩
        (fun j pj _ hj =>
          ReadPC.readOk_frame A B _ _ _ _ pj (hinv.readersOk j pj hj) (Nat.le_refl _)
            (fun _ _ => rfl) (fun a _ hd hw => ⟨hd, hw⟩) (fun _ => rfl))
      distinct := Inv.set_distinct i _ _ hi hinv.distinct (fun b hb hnb => by
        exact absurd hb hnb) }
  | returned res =>
    simp [ReadPC.step] at hstep

theorem Inv.preserved_step {env : Env} {fp : GoString} {A B : List Data}
    (hB : ∀ file, env.ReadFile fp = .ok file → (env.Unmarshal file).2 = none →
      B = (env.Unmarshal file).1)
    {st : System} (hinv : Inv env fp A B st) (t : Thread) :
    Inv env fp A B (st.step env t) := by
  cases t with
  | writer =>
    simp only [System.step]
    cases hstep : st.writer.step env st.shared with
    | none => exact hinv
    | some r =>
      obtain ⟨act, pc1, sh1⟩ := r
      exact Inv.writer_step hB hinv act pc1 sh1 hstep
  | reader i =>
    simp only [System.step]
    cases hi : st.readers[i]? with
    | none => exact hinv
    | some pc =>
      simp only []
      cases hstep : pc.step st.shared with
      | none => exact hinv
      | some r =>
        obtain ⟨act, pc1, sh1⟩ := r
        exact Inv.reader_step hinv i pc hi act pc1 sh1 hstep

theorem Inv.preserved_run {env : Env} {fp : GoString} {A B : List Data}
    (hB : ∀ file, env.ReadFile fp = .ok file → (env.Unmarshal file).2 = none →
      B = (env.Unmarshal file).1)
    (schedule : List Thread) : ∀ (st : System), Inv env fp A B st →
      Inv env fp A B (System.run env schedule st) := by
  induction schedule with
  | nil => intro st hinv; exact hinv
  | cons t ts ih =>
    intro st hinv
    exact ih (st.step env t) (Inv.preserved_step hB hinv t)

theorem Inv.holds_init (env : Env) (s : Service) (h : Heap) (hs : h.allocated s.data) (n : Nat)
    (B : List Data) : Inv env s.filePath (s.snapshot h) B (System.init s h n) where
  path := rfl
  writerFlag := rfl
  readerCount := by
    simp [System.init, List.countP_replicate, ReadPC.holds]
  exclusive := fun _ => rfl
  allocated := hs
  snapshot := Or.inl rfl
  writerOk := trivial
  readersOk := fun i pc hi => by
    simp only [System.init, List.getElem?_replicate] at hi
    split at hi
    · cases hi; trivial
    · cases hi
  distinct := fun i j pi pj a _ hi _ hres => by
    simp only [System.init, List.getElem?_replicate] at hi
    split at hi
    · cases hi; cases hres
    · cases hi

theorem reloaded_eq (env : Env) (s : Service) (h : Heap) (file : List Nat)
    (hr : env.ReadFile s.filePath = .ok file) (hu : (env.Unmarshal file).2 = none) :
    s.reloaded env h = (env.Unmarshal file).1 := by
  simp only [Service.reloaded, Service.Reload]
  rw [LoadData_ok env s h file hr hu]
  exact elems_alloc_new h _

theorem run_append (env : Env) (ts us : List Thread) : ∀ (st : System),
    System.run env (ts ++ us) st = System.run env us (System.run env ts st) := by
  induction ts with
  | nil => intro st; rfl
  | cons t rest ih => intro st; exact ih (st.step env t)

theorem step_readers_length (env : Env) (t : Thread) (st : System) :
    (st.step env t).readers.length = st.readers.length := by
  cases t with
  | writer =>
    simp only [System.step]
    split <;> rfl
  | reader i =>
    simp only [System.step]
    split
    · rfl
    · split
      · rfl
      · simp

theorem run_readers_length (env : Env) (ts : List Thread) : ∀ (st : System),
    (System.run env ts st).readers.length = st.readers.length := by
  induction ts with
  | nil => intro st; rfl
  | cons t rest ih =>
    intro st
    exact (ih (st.step env t)).trans (step_readers_length env t st)

theorem writer_finishes (env : Env) (st : System)
    (hflag : st.shared.mu.writer = st.writer.holds) :
    (System.run env [.writer, .writer, .writer, .writer, .writer] st).shared.mu.writer = false ∧
    (System.run env [.writer, .writer, .writer, .writer, .writer] st).readers = st.readers := by
  obtain ⟨⟨svc, heap, mu⟩, wpc, rs⟩ := st
  simp only at hflag
  cases wpc with
  | start =>
    simp only [LoadPC.holds] at hflag
    by_cases hfree : mu.writer = false ∧ mu.readers = 0
    · cases hr : env.ReadFile svc.filePath with
      | error e =>
        simp [System.run, System.step, LoadPC.step, RWMutex.Lock, RWMutex.Unlock, hfree, hr]
      | ok file =>
        cases hu : (env.Unmarshal file).2 with
        | some e =>
          simp [System.run, System.step, LoadPC.step, RWMutex.Lock, RWMutex.Unlock, hfree, hr,
            hu]
        | none =>
          simp [System.run, System.step, LoadPC.step, RWMutex.Lock, RWMutex.Unlock, hfree, hr,
            hu]
    · have hstep : System.step env .writer ⟨⟨svc, heap, mu⟩, .start, rs⟩
          = ⟨⟨svc, heap, mu⟩, .start, rs⟩ := by
        simp [System.step, LoadPC.step, RWMutex.Lock, hfree]
      simp only [System.run, hstep]
      exact ⟨hflag, trivial⟩
  | locked =>
    cases hr : env.ReadFile svc.filePath with
    | error e =>
      simp [System.run, System.step, LoadPC.step, RWMutex.Unlock, hr]
    | ok file =>
      cases hu : (env.Unmarshal file).2 with
      | some e =>
        simp [System.run, System.step, LoadPC.step, RWMutex.Unlock, hr, hu]
      | none =>
        simp [System.run, System.step, LoadPC.step, RWMutex.Unlock, hr, hu]
  | read file =>
    cases hu : (env.Unmarshal file).2 with
    | some e =>
      simp [System.run, System.step, LoadPC.step, RWMutex.Unlock, hu]
    | none =>
      simp [System.run, System.step, LoadPC.step, RWMutex.Unlock, hu]
  | decoded d => simp [System.run, System.step, LoadPC.step, RWMutex.Unlock]
  | failing e => simp [System.run, System.step, LoadPC.step, RWMutex.Unlock]
  | assigned => simp [System.run, System.step, LoadPC.step, RWMutex.Unlock]
  | returned e =>
    simp only [LoadPC.holds] at hflag
    have hstep : System.step env .writer ⟨⟨svc, heap, mu⟩, .returned e, rs⟩
        = ⟨⟨svc, heap, mu⟩, .returned e, rs⟩ := by
      simp [System.step, LoadPC.step]
    simp only [System.run, hstep]
    exact ⟨hflag, trivial⟩

theorem reader_step_eq (env : Env) (sh sh1 : Shared) (w : LoadPC) (rs : List ReadPC) (i : Nat)
    (pc pc1 : ReadPC) (act : Action) (hi : rs[i]? = some pc)
    (hstep : pc.step sh = some (act, pc1, sh1)) :
    System.step env (.reader i) ⟨sh, w, rs⟩ = ⟨sh1, w, rs.set i pc1⟩ := by
  simp [System.step, hi, hstep]

theorem reader_finishes (env : Env) (st : System) (i : Nat)
    (hflag : st.shared.mu.writer = false) (hi : i < st.readers.length) :
    ∃ result, (System.run env [.reader i, .reader i, .reader i, .reader i] st).readers[i]?
      = some (.returned result) := by
  obtain ⟨⟨svc, heap, mu⟩, wpc, rs⟩ := st
  simp only at hflag hi
  have hset : ∀ (l : List ReadPC) (pc : ReadPC), l.length = rs.length →
      (l.set i pc)[i]? = some pc := fun l pc hl =>
    List.getElem?_set_self (by rw [hl]; exact hi)
  have hget : rs[i]? = some rs[i] := List.getElem?_eq_getElem hi
  have s4 : ∀ (sh : Shared) (l : List ReadPC) (res : Slice), l[i]? = some (.returned res) →
      (System.step env (.reader i) ⟨sh, wpc, l⟩).readers[i]? = some (.returned res) := by
    intro sh l res hl
    simp [System.step, hl, ReadPC.step]
  have s3 : ∀ (sh : Shared) (l : List ReadPC) (res : Slice), l.length = rs.length →
      l[i]? = some (.copied res) →
      ∃ sh1 l1, System.step env (.reader i) ⟨sh, wpc, l⟩ = ⟨sh1, wpc, l1⟩ ∧
        l1.length = rs.length ∧ l1[i]? = some (.returned res) := by
    intro sh l res hlen hl
    exact ⟨_, _, reader_step_eq env sh _ wpc l i _ _ _ hl rfl, by simpa using hlen,
      hset l _ hlen⟩
  have s2 : ∀ (sh : Shared) (l : List ReadPC) (res : Slice), l.length = rs.length →
      l[i]? = some (.made res) →
      ∃ sh1 l1, System.step env (.reader i) ⟨sh, wpc, l⟩ = ⟨sh1, wpc, l1⟩ ∧
        l1.length = rs.length ∧ l1[i]? = some (.copied res) := by
    intro sh l res hlen hl
    exact ⟨_, _, reader_step_eq env sh _ wpc l i _ _ _ hl rfl, by simpa using hlen,
      hset l _ hlen⟩
  have s1 : ∀ (sh : Shared) (l : List ReadPC), l.length = rs.length →
      l[i]? = some .locked →
      ∃ sh1 l1 res, System.step env (.reader i) ⟨sh, wpc, l⟩ = ⟨sh1, wpc, l1⟩ ∧
        l1.length = rs.length ∧ l1[i]? = some (.made res) := by
    intro sh l hlen hl
    exact ⟨_, _, _, reader_step_eq env sh _ wpc l i _ _ _ hl rfl, by simpa using hlen,
      hset l _ hlen⟩
  cases hpc : rs[i] with
  | start =>
    rw [hpc] at hget
    have h0 : System.step env (.reader i) ⟨⟨svc, heap, mu⟩, wpc, rs⟩
        = ⟨⟨svc, heap, ⟨false, mu.readers + 1⟩⟩, wpc, rs.set i .locked⟩ :=
      reader_step_eq env _ _ wpc rs i _ _ .RLock hget (by simp [ReadPC.step, RWMutex.RLock, hflag])
    obtain ⟨sh1, l1, res, e1, len1, g1⟩ := s1 ⟨svc, heap, ⟨false, mu.readers + 1⟩⟩
      (rs.set i .locked) (by simp) (hset rs _ rfl)
    obtain ⟨sh2, l2, e2, len2, g2⟩ := s2 sh1 l1 res len1 g1
    obtain ⟨sh3, l3, e3, len3, g3⟩ := s3 sh2 l2 res len2 g2
    exact ⟨res, by simp only [System.run, h0, e1, e2, e3]; exact g3⟩
  | locked =>
    rw [hpc] at hget
    obtain ⟨sh1, l1, res, e1, len1, g1⟩ := s1 ⟨svc, heap, mu⟩ rs rfl hget
    obtain ⟨sh2, l2, e2, len2, g2⟩ := s2 sh1 l1 res len1 g1
    obtain ⟨sh3, l3, e3, len3, g3⟩ := s3 sh2 l2 res len2 g2
    exact ⟨res, by simp only [System.run, e1, e2, e3]; exact s4 sh3 l3 res g3⟩
  | made res =>
    rw [hpc] at hget
    obtain ⟨sh2, l2, e2, len2, g2⟩ := s2 ⟨svc, heap, mu⟩ rs res rfl hget
    obtain ⟨sh3, l3, e3, len3, g3⟩ := s3 sh2 l2 res len2 g2
    have e4 : System.step env (.reader i) ⟨sh3, wpc, l3⟩ = ⟨sh3, wpc, l3⟩ := by
      simp [System.step, g3, ReadPC.step]
    exact ⟨res, by simp only [System.run, e2, e3, e4]; exact g3⟩
  | copied res =>
    rw [hpc] at hget
    obtain ⟨sh3, l3, e3, len3, g3⟩ := s3 ⟨svc, heap, mu⟩ rs res rfl hget
    have e4 : System.step env (.reader i) ⟨sh3, wpc, l3⟩ = ⟨sh3, wpc, l3⟩ := by
      simp [System.step, g3, ReadPC.step]
    exact ⟨res, by simp only [System.run, e3, e4]; exact g3⟩
  | returned res =>
    rw [hpc] at hget
    have e4 : System.step env (.reader i) ⟨⟨svc, heap, mu⟩, wpc, rs⟩
        = ⟨⟨svc, heap, mu⟩, wpc, rs⟩ := by
      simp [System.step, hget, ReadPC.step]
    exact ⟨res, by simp only [System.run, e4]; exact hget⟩

theorem filled_slice_consistent (env : Env) (s : Service) (h : Heap) (hs : h.allocated s.data)
    (n : Nat) (schedule : List Thread) (i : Nat) (result : Slice)
    (hret : (System.run env schedule (System.init s h n)).readers[i]? = some (.returned result)
      ∨ (System.run env schedule (System.init s h n)).readers[i]? = some (.copied result)) :
    (System.run env schedule (System.init s h n)).shared.heap.elems result = s.snapshot h ∨
    (System.run env schedule (System.init s h n)).shared.heap.elems result
      = s.reloaded env h := by
  have hinv := Inv.preserved_run (fun file hr hu => reloaded_eq env s h file hr hu) schedule
    (System.init s h n) (Inv.holds_init env s h hs n (s.reloaded env h))
  rcases hret with hret | hret
  · obtain ⟨a, hres, _, _, _, hc⟩ := hinv.readersOk i _ hret
    subst hres
    exact hc
  · obtain ⟨a, hres, _, _, _, hc⟩ := hinv.readersOk i _ hret
    subst hres
    exact hc

/-- C13: in every run of one reload and `n` calls of `GetAllData` on a service
whose snapshot is `A`, under every schedule, the slice that a call of
`GetAllData` has filled or returned holds either all of `A` or all of the
snapshot `B` that the reload installs, never a mixture of the two; and no call
is stuck: once the reload and then the call are let run, the call returns such
a slice. -/
theorem GetAllData_all_A_or_all_B (env : Env) (s : Service) (h : Heap)
    (hs : h.allocated s.data) (n : Nat) (schedule : List Thread) :
    (∀ (i : Nat) (result : Slice),
      ((System.run env schedule (System.init s h n)).readers[i]? = some (.returned result)
        ∨ (System.run env schedule (System.init s h n)).readers[i]? = some (.copied result)) →
      ((System.run env schedule (System.init s h n)).shared.heap.elems result = s.snapshot h ∨
        (System.run env schedule (System.init s h n)).shared.heap.elems result
          = s.reloaded env h)) ∧
    (∀ (i : Nat), i < n → ∃ result,
      (System.run env
        (schedule ++ [.writer, .writer, .writer, .writer, .writer]
          ++ [.reader i, .reader i, .reader i, .reader i])
        (System.init s h n)).readers[i]? = some (.returned result) ∧
      ((System.run env
          (schedule ++ [.writer, .writer, .writer, .writer, .writer]
            ++ [.reader i, .reader i, .reader i, .reader i])
          (System.init s h n)).shared.heap.elems result = s.snapshot h ∨
        (System.run env
          (schedule ++ [.writer, .writer, .writer, .writer, .writer]
            ++ [.reader i, .reader i, .reader i, .reader i])
          (System.init s h n)).shared.heap.elems result = s.reloaded env h)) := by
  refine ⟨fun i result hret => filled_slice_consistent env s h hs n schedule i result hret, ?_⟩
  intro i hi
  have hinv := Inv.preserved_run (fun file hr hu => reloaded_eq env s h file hr hu) schedule
    (System.init s h n) (Inv.holds_init env s h hs n (s.reloaded env h))
  have hlen : (System.run env schedule (System.init s h n)).readers.length = n := by
    rw [run_readers_length]
    simp [System.init]
  obtain ⟨hflag, hrs⟩ := writer_finishes env _ hinv.writerFlag
  obtain ⟨result, hres⟩ := reader_finishes env
    (System.run env [.writer, .writer, .writer, .writer, .writer]
      (System.run env schedule (System.init s h n))) i hflag (by rw [hrs, hlen]; exact hi)
  have hrun : System.run env
      (schedule ++ [.writer, .writer, .writer, .writer, .writer]
        ++ [.reader i, .reader i, .reader i, .reader i]) (System.init s h n)
      = System.run env [.reader i, .reader i, .reader i, .reader i]
        (System.run env [.writer, .writer, .writer, .writer, .writer]
          (System.run env schedule (System.init s h n))) := by
    rw [run_append, run_append]
  refine ⟨result, by rw [hrun]; exact hres, ?_⟩
  exact filled_slice_consistent env s h hs n _ i result (Or.inl (by rw [hrun]; exact hres))

/-- A run in which the first call of `GetAllData` returns before the reload
and the second starts after it: the first slice holds the old snapshot, the
second the new one. -/
theorem run_reader_before_and_after :
    System.run okEnv [.reader 0, .reader 0, .writer, .reader 0, .reader 0, .writer,
      .writer, .writer, .writer, .writer, .reader 1, .reader 1, .reader 1, .reader 1]
      (System.init testService testHeap 2) =
    ⟨⟨⟨some 2, str "./data.json"⟩, [[testRecord], [testRecord], [badRecord], [badRecord]],
      ⟨false, 0⟩⟩, .returned none, [.returned (some 1), .returned (some 3)]⟩ := by
  decide

/-- Witness of C13: the second call of `GetAllData` of that run. -/
theorem GetAllData_all_A_or_all_B_witness :
    testHeap.allocated testService.data ∧
    (Heap.elems [[testRecord], [testRecord], [badRecord], [badRecord]] (some 3)
        = testService.snapshot testHeap ∨
      Heap.elems [[testRecord], [testRecord], [badRecord], [badRecord]] (some 3)
        = testService.reloaded okEnv testHeap) :=
  ⟨testService_allocated,
    (congrArg (fun st : System => st.shared.heap.elems (some 3) = testService.snapshot testHeap ∨
        st.shared.heap.elems (some 3) = testService.reloaded okEnv testHeap)
      run_reader_before_and_after).mp
      ((GetAllData_all_A_or_all_B okEnv testService testHeap testService_allocated 2
        [.reader 0, .reader 0, .writer, .reader 0, .reader 0, .writer,
          .writer, .writer, .writer, .writer, .reader 1, .reader 1, .reader 1, .reader 1]).1
        1 (some 3) (Or.inl (by decide)))⟩

/-- What the lock prevents: from a state, not reachable under the lock, in
which the assignment of a reload falls between the `make` and the `copy` of a
call of `GetAllData`, the slice ends up holding only a part of the new
snapshot. -/
theorem copy_after_swap_mixes :
    (System.run okEnv [.writer, .reader 0]
      ⟨⟨testService, [[testRecord], [Data.zero], [badRecord, testRecord]], ⟨true, 1⟩⟩,
        .decoded 2, [.made (some 1)]⟩).shared.heap
      = [[testRecord], [badRecord], [badRecord, testRecord]] := by
  decide

end Api
